import Mathlib

/-! Insulin pump controller: embedding and verified properties.

A shallow embedding of the pump controller of `TSlimX2pump.cpp` (class `TSlimX2Pump`)
with the event and profile types of `Event.h` and `Profile.h`.

Modelling conventions.

* In the embedding of the whole controller (`TSlimX2Pump`) the C++ `float` quantities
  (battery, reservoir, insulin on board, rates) are exact rationals: every argument is a
  number and every `float` assignment is read as the exact operation.
* The operations whose behaviour depends on NaN or on rounding (`powerOn`,
  `chargeBattery`, `refillInsulin`, `deliverBolus`, `cancelBolus`) are embedded a second
  time over binary32 values with NaN, infinities and rounding to nearest (`Binary32`,
  `FloatPump`).
* Every operation is a pure function from the controller state (and the wall clock
  it reads) to its boolean result and the state it leaves behind.
* `std::map` is an association list with unique keys; the time-keyed tables are kept
  sorted by key, as the lookup depends on the order.
* Events are values: the in-place cancellation of a logged bolus rewrites the log entry.
* A null-pointer dereference has no result (`none`).
-/

namespace InsulinPump

/-! ## Enumerations (`TSlimX2Pump.h`, `Event.h`) -/

/-- Pump states, `TSlimX2Pump::State`. -/
inductive State where
  | OFF
  | ON
  | SLEEP
  | DELIVERING_BOLUS
  | DELIVERING_BASAL
  | SUSPENDED
  | ERROR
deriving DecidableEq, Repr

/-- Error types, `TSlimX2Pump::ErrorType`. -/
inductive ErrorType where
  | NONE
  | LOW_BATTERY
  | LOW_INSULIN
  | OCCLUSION
  | CGM_DISCONNECTION
  | CRITICAL_ERROR
deriving DecidableEq, Repr

/-- Kinds of bolus, `BolusEvent::BolusType`. -/
inductive BolusType where
  | MANUAL
  | EXTENDED
  | QUICK
  | CORRECTION
deriving DecidableEq, Repr

/-- Kinds of alarm, `AlarmEvent::AlarmType`. -/
inductive AlarmType where
  | LOW_GLUCOSE
  | HIGH_GLUCOSE
  | LOW_INSULIN
  | LOW_BATTERY
  | OCCLUSION
  | CGM_DISCONNECTION
deriving DecidableEq, Repr

/-- Discriminant of an event, `Event::EventType`. -/
inductive EventType where
  | BOLUS
  | BASAL_CHANGE
  | PROFILE_CHANGE
  | SUSPEND
  | RESUME
  | CGM_READING
  | ALARM
  | ERROR
deriving DecidableEq, Repr

/-! ## Events (`Event.h`) -/

/-- The event classes of `Event.h` as one closed variant: each constructor carries the
timestamp of the base class and the private members of its subclass. -/
inductive Event where
  | bolus (timestamp : Int) (bolusType : BolusType) (units : ℚ) (durationMinutes : Int)
      (cancelled : Bool)
  | basalChange (timestamp : Int) (oldRate newRate : ℚ) (reason : String)
  | profileChange (timestamp : Int) (oldProfile newProfile : String)
  | suspend (timestamp : Int) (reason : String)
  | resume (timestamp : Int) (reason : String)
  | cgmReading (timestamp : Int) (glucoseValue : ℚ)
  | alarm (timestamp : Int) (alarmType : AlarmType) (details : String)
  | error (timestamp : Int) (errorCode errorMessage : String)
deriving DecidableEq

namespace Event

/-- Accessor `Event::getType`. -/
def getType : Event → EventType
  | bolus .. => .BOLUS
  | basalChange .. => .BASAL_CHANGE
  | profileChange .. => .PROFILE_CHANGE
  | suspend .. => .SUSPEND
  | resume .. => .RESUME
  | cgmReading .. => .CGM_READING
  | alarm .. => .ALARM
  | error .. => .ERROR

/-- Modelled from the spec: the constructor `BolusEvent::BolusEvent` (its body is not
under src); a new bolus event carries the given payload and is not cancelled. -/
def mkBolus (timestamp : Int) (bolusType : BolusType) (units : ℚ) (durationMinutes : Int) :
    Event :=
  bolus timestamp bolusType units durationMinutes false

/-- The test of the reverse scan in `cancelBolus`: the dynamic cast to `BolusEvent`
succeeds and `isCancelled()` is false. -/
def isUncancelledBolus : Event → Bool
  | bolus _ _ _ _ cancelled => !cancelled
  | _ => false

/-- The test whether an event is a bolus event (the dynamic cast succeeds). -/
def isBolus : Event → Bool
  | bolus .. => true
  | _ => false

/-- Effect of `setCancelled(true)` on a bolus event; other events have no such member. -/
def setCancelled : Event → Event
  | bolus ts bt u d _ => bolus ts bt u d true
  | e => e

/-- Accessor `BolusEvent::getUnits` (zero on an event that is no bolus). -/
def getUnits : Event → ℚ
  | bolus _ _ u _ _ => u
  | _ => 0

/-- The share of a logged event in the insulin on board: a bolus counts with its units,
a cancelled one with the half that is taken as delivered. -/
def activeUnits : Event → ℚ
  | bolus _ _ u _ cancelled => if cancelled then u - u / 2 else u
  | _ => 0

end Event

/-! ## Profiles (`Profile.h`) -/

/-- A time-keyed table, `std::map<int, float>`: key is minutes since midnight. -/
abbrev Settings := List (Int × ℚ)

/-- The assignment `settings[key] = value` of `std::map<int, float>`: overwrite the entry
of an existing key, otherwise insert in key order. -/
def Settings.set (key : Int) (value : ℚ) : Settings → Settings
  | [] => [(key, value)]
  | (k, v) :: rest =>
    if key = k then (key, value) :: rest
    else if key < k then (key, value) :: (k, v) :: rest
    else (k, v) :: Settings.set key value rest

/-- The class `Profile`: a name, four time-keyed tables and the insulin duration. -/
structure Profile where
  name : String
  basalRates : Settings
  carbRatios : Settings
  correctionFactors : Settings
  targetGlucoses : Settings
  insulinDuration : ℚ
deriving DecidableEq

namespace Profile

/-- Modelled from the spec: the constructor `Profile::Profile(name)` (Profile.cpp is not
under src); a new profile has the given name and four empty tables. Its duration is
taken as 0, at which `isValid` fails. -/
def new (name : String) : Profile :=
  { name := name, basalRates := [], carbRatios := [], correctionFactors := [],
    targetGlucoses := [], insulinDuration := 0 }

/-- Modelled from the spec: the helper `Profile::timeToMinutes` (not under src), minutes
since midnight. -/
def timeToMinutes (hour minute : Int) : Int := hour * 60 + minute

/-- Modelled from the spec: the helper `Profile::getValueAtTime` (not under src). The
lookup for time T returns the value of the greatest key at most T, wrapping to the
latest key if T is before the first key; an empty table yields zero. -/
def getValueAtTime (settings : Settings) (hour minute : Int) : ℚ :=
  match (settings.filter (fun e => decide (e.1 ≤ timeToMinutes hour minute))).getLast? with
  | some e => e.2
  | none =>
    match settings.getLast? with
    | some e => e.2
    | none => 0

/-- Modelled from the spec: `Profile::addBasalRate` (not under src) sets the segment
boundary at the given time of day. -/
def addBasalRate (p : Profile) (startHour startMinute : Int) (rate : ℚ) : Profile :=
  { p with basalRates := p.basalRates.set (timeToMinutes startHour startMinute) rate }

/-- Modelled from the spec: `Profile::addCarbRatio` (not under src). -/
def addCarbRatio (p : Profile) (startHour startMinute : Int) (ratio : ℚ) : Profile :=
  { p with carbRatios := p.carbRatios.set (timeToMinutes startHour startMinute) ratio }

/-- Modelled from the spec: `Profile::addCorrectionFactor` (not under src). -/
def addCorrectionFactor (p : Profile) (startHour startMinute : Int) (factor : ℚ) : Profile :=
  { p with
    correctionFactors := p.correctionFactors.set (timeToMinutes startHour startMinute) factor }

/-- Modelled from the spec: `Profile::addTargetGlucose` (not under src). -/
def addTargetGlucose (p : Profile) (startHour startMinute : Int) (target : ℚ) : Profile :=
  { p with targetGlucoses := p.targetGlucoses.set (timeToMinutes startHour startMinute) target }

/-- Modelled from the spec: `Profile::setInsulinDuration` (not under src). -/
def setInsulinDuration (p : Profile) (hours : ℚ) : Profile :=
  { p with insulinDuration := hours }

/-- Modelled from the spec: `Profile::getBasalRate` (not under src), the lookup in the
basal-rate table. -/
def getBasalRate (p : Profile) (hour minute : Int) : ℚ :=
  getValueAtTime p.basalRates hour minute

/-- Modelled from the spec: `Profile::getCarbRatio` (not under src). -/
def getCarbRatio (p : Profile) (hour minute : Int) : ℚ :=
  getValueAtTime p.carbRatios hour minute

/-- Modelled from the spec: `Profile::getCorrectionFactor` (not under src). -/
def getCorrectionFactor (p : Profile) (hour minute : Int) : ℚ :=
  getValueAtTime p.correctionFactors hour minute

/-- Modelled from the spec: `Profile::getTargetGlucose` (not under src). -/
def getTargetGlucose (p : Profile) (hour minute : Int) : ℚ :=
  getValueAtTime p.targetGlucoses hour minute

/-- Modelled from the spec: `Profile::isValid` (not under src); validity requires a
positive insulin duration and all four tables non-empty. -/
def isValid (p : Profile) : Bool :=
  decide (0 < p.insulinDuration) && !p.basalRates.isEmpty && !p.carbRatios.isEmpty &&
    !p.correctionFactors.isEmpty && !p.targetGlucoses.isEmpty

end Profile

/-! ## The profile registry (`std::map<std::string, std::shared_ptr<Profile>>`) -/

/-- The registry of profiles by name. The order of the entries is not observable through
the operations modelled here. -/
abbrev Registry := List (String × Profile)

namespace Registry

/-- The lookup `profiles.find(name)`: the profile stored under the name, if any. -/
def find (r : Registry) (name : String) : Option Profile :=
  match r with
  | [] => none
  | (k, p) :: rest => if k = name then some p else find rest name

/-- The test `profiles.find(name) != profiles.end()`. -/
def contains (r : Registry) (name : String) : Bool :=
  (find r name).isSome

/-- The assignment `profiles[name] = profile`: replace the entry of an existing name,
otherwise add one. -/
def assign (r : Registry) (name : String) (p : Profile) : Registry :=
  match r with
  | [] => [(name, p)]
  | (k, q) :: rest => if k = name then (k, p) :: rest else (k, q) :: assign rest name p

/-- The call `profiles.erase(name)`. -/
def erase (r : Registry) (name : String) : Registry :=
  r.filter (fun e => decide (e.1 ≠ name))

end Registry

/-! ## Controller state (`TSlimX2Pump.h`) -/

/-- A glucose reading, `CGMData::GlucoseReading`. -/
structure GlucoseReading where
  timestamp : Int
  value : ℚ
  isValid : Bool
deriving DecidableEq

/-- The wall clock as one operation reads it: `time(nullptr)` and the hour and minute
that `localtime` derives from it. An operation reads the clock once. -/
structure Clock where
  now : Int
  hour : Int
  minute : Int
deriving DecidableEq

/-- The private members of class `TSlimX2Pump`. The field `glucoseSeries` is modelled
from the spec (the glucose series that `updateCGMData` appends to); the class
declaration under src has no such member. -/
structure TSlimX2Pump where
  currentState : State
  currentError : ErrorType
  errorMessage : String
  batteryLevel : ℚ
  insulinLevel : ℚ
  insulinOnBoard : ℚ
  lastBolusTime : Int
  lastBolusAmount : ℚ
  controlIQEnabled : Bool
  cgmConnected : Bool
  currentGlucose : ℚ
  activeProfileName : String
  profiles : Registry
  eventHistory : List Event
  glucoseSeries : List GlucoseReading
deriving DecidableEq

/-- The default profile that the constructor builds: the four tables hold one entry per
hour of the day, and the insulin duration is 5 hours. -/
def defaultProfile : Profile :=
  let hours : List Int := (List.range 24).map Int.ofNat
  let p0 := Profile.new "Default"
  let p1 := hours.foldl (fun p hour => p.addBasalRate hour 0 (1 / 2)) p0
  let p2 := hours.foldl (fun p hour => p.addCarbRatio hour 0 15) p1
  let p3 := hours.foldl (fun p hour => p.addCorrectionFactor hour 0 2) p2
  let p4 := hours.foldl (fun p hour => p.addTargetGlucose hour 0 (67 / 10)) p3
  p4.setInsulinDuration 5

namespace TSlimX2Pump

/-- The constructor `TSlimX2Pump::TSlimX2Pump`. -/
def init : TSlimX2Pump :=
  { currentState := .OFF
    currentError := .NONE
    errorMessage := ""
    batteryLevel := 100
    insulinLevel := 0
    insulinOnBoard := 0
    lastBolusTime := 0
    lastBolusAmount := 0
    controlIQEnabled := false
    cgmConnected := false
    currentGlucose := 0
    activeProfileName := "Default"
    profiles := Registry.assign [] "Default" defaultProfile
    eventHistory := []
    glucoseSeries := [] }

/-- Modelled from the spec: the helper `logEvent` (its body is not under src) adds the
event to the end of the event log. -/
def logEvent (s : TSlimX2Pump) (e : Event) : TSlimX2Pump :=
  { s with eventHistory := s.eventHistory ++ [e] }

/-- Member `powerOn`. -/
def powerOn (s : TSlimX2Pump) (c : Clock) : Bool × TSlimX2Pump :=
  if s.currentState = .OFF then
    if s.batteryLevel ≤ 0 then
      (false, { s with currentError := .LOW_BATTERY,
                       errorMessage := "Cannot power on: Battery depleted" })
    else
      (true, logEvent { s with currentState := .ON } (.resume c.now "Power on"))
  else (false, s)

/-- Member `powerOff`. -/
def powerOff (s : TSlimX2Pump) (c : Clock) : Bool × TSlimX2Pump :=
  if s.currentState ≠ .OFF then
    let s1 :=
      if s.currentState = .DELIVERING_BOLUS ∨ s.currentState = .DELIVERING_BASAL then
        logEvent s (.suspend c.now "Power off")
      else s
    (true, { s1 with currentState := .OFF })
  else (false, s)

/-- Member `sleep`. -/
def sleep (s : TSlimX2Pump) : Bool × TSlimX2Pump :=
  if s.currentState = .ON ∨ s.currentState = .DELIVERING_BASAL then
    (true, { s with currentState := .SLEEP })
  else (false, s)

/-- Member `wake`. -/
def wake (s : TSlimX2Pump) : Bool × TSlimX2Pump :=
  if s.currentState = .SLEEP then (true, { s with currentState := .ON })
  else (false, s)

/-- Member `chargeBattery`. The locals follow the successive values of the members
that the body assigns. The amount is a number; `FloatPump.chargeBattery` embeds the same
body over binary32 values, where the amount may be NaN. -/
def chargeBattery (s : TSlimX2Pump) (amount : ℚ) : Bool × TSlimX2Pump :=
  if amount ≤ 0 then (false, s)
  else
    let raised := s.batteryLevel + amount
    let batteryLevel := if raised > 100 then 100 else raised
    let cleared := s.currentError = .LOW_BATTERY ∧ batteryLevel > 15
    (true, { s with batteryLevel := batteryLevel
                    currentError := if cleared then .NONE else s.currentError
                    errorMessage := if cleared then "" else s.errorMessage })

/-- Member `refillInsulin`. The amount is a number; `FloatPump.refillInsulin` embeds the
same body over binary32 values. -/
def refillInsulin (s : TSlimX2Pump) (amount : ℚ) : Bool × TSlimX2Pump :=
  if amount ≤ 0 then (false, s)
  else if s.currentState = .OFF then (false, s)
  else
    let maxCapacity : ℚ := 300
    let newLevel := s.insulinLevel + amount
    let insulinLevel := if newLevel > maxCapacity then maxCapacity else newLevel
    let cleared := s.currentError = .LOW_INSULIN ∧ insulinLevel > 50
    (true, { s with insulinLevel := insulinLevel
                    currentError := if cleared then .NONE else s.currentError
                    errorMessage := if cleared then "" else s.errorMessage })

/-- Member `createProfile`. -/
def createProfile (s : TSlimX2Pump) (name : String) : Bool × TSlimX2Pump :=
  if name = "" ∨ s.profiles.contains name = true then (false, s)
  else (true, { s with profiles := s.profiles.assign name (Profile.new name) })

/-- Member `getProfile`: the stored profile, or nothing where the code returns null. -/
def getProfile (s : TSlimX2Pump) (name : String) : Option Profile :=
  s.profiles.find name

/-- Member `getAllProfileNames` (up to the order of the names). -/
def getAllProfileNames (s : TSlimX2Pump) : List String :=
  s.profiles.map Prod.fst

/-- Member `updateProfile`; the profile argument is absent where the pointer is null. -/
def updateProfile (s : TSlimX2Pump) (c : Clock) (name : String) (profile : Option Profile) :
    Bool × TSlimX2Pump :=
  match profile with
  | none => (false, s)
  | some p =>
    if name = "" ∨ s.profiles.contains name = false then (false, s)
    else
      let s1 := { s with profiles := s.profiles.assign name p }
      let s2 := if name = s1.activeProfileName then logEvent s1 (.profileChange c.now name name)
                else s1
      (true, s2)

/-- Member `activateProfile`. While delivering basal insulin the code dereferences the
previously active profile; there is no result when that profile is not registered. -/
def activateProfile (s : TSlimX2Pump) (c : Clock) (name : String) :
    Option (Bool × TSlimX2Pump) :=
  if name = "" ∨ s.profiles.contains name = false then some (false, s)
  else
    let s1 := logEvent s (.profileChange c.now s.activeProfileName name)
    let oldProfileName := s1.activeProfileName
    let s2 := { s1 with activeProfileName := name }
    if s2.currentState = .DELIVERING_BASAL then
      match getProfile s2 oldProfileName, getProfile s2 name with
      | some oldProfile, some newProfile =>
        let oldRate := oldProfile.getBasalRate c.hour c.minute
        let newRate := newProfile.getBasalRate c.hour c.minute
        if oldRate ≠ newRate then
          some (true, logEvent s2 (.basalChange c.now oldRate newRate "Profile change"))
        else some (true, s2)
      | _, _ => none
    else some (true, s2)

/-- Member `getActiveProfileName`. -/
def getActiveProfileName (s : TSlimX2Pump) : String := s.activeProfileName

/-- Member `getActiveProfile`. -/
def getActiveProfile (s : TSlimX2Pump) : Option Profile :=
  s.profiles.find s.activeProfileName

/-- Member `deleteProfile`; the result of the inner `activateProfile` call is dropped. -/
def deleteProfile (s : TSlimX2Pump) (c : Clock) (name : String) :
    Option (Bool × TSlimX2Pump) :=
  if name = "Default" ∨ name = "" ∨ s.profiles.contains name = false then some (false, s)
  else
    let inner : Option TSlimX2Pump :=
      if name = s.activeProfileName then (activateProfile s c "Default").map Prod.snd
      else some s
    inner.map (fun s1 => (true, { s1 with profiles := s1.profiles.erase name }))

/-- Member `deliverBolus`. The locals follow the successive values of the members that
the body assigns after logging the event. The units are a number and the two updates are
exact; `FloatPump.deliverBolus` embeds the same body over binary32 values, where the
units may be NaN and each update is rounded. -/
def deliverBolus (s : TSlimX2Pump) (c : Clock) (units : ℚ) (extended : Bool)
    (durationMinutes : Int) : Bool × TSlimX2Pump :=
  if s.currentState = .OFF ∨ s.currentState = .SLEEP ∨ s.currentState = .ERROR then (false, s)
  else if units ≤ 0 ∨ s.insulinLevel < units then (false, s)
  else if extended = true ∧ durationMinutes ≤ 0 then (false, s)
  else
    let bolusType := if extended = true then BolusType.EXTENDED else BolusType.MANUAL
    let s1 := logEvent s (Event.mkBolus c.now bolusType units durationMinutes)
    let insulinLevel := s1.insulinLevel - units
    let insulinOnBoard := s1.insulinOnBoard + units
    let low := insulinLevel < 50 ∧ s1.currentError = .NONE
    (true, { s1 with currentState := if extended = false then .DELIVERING_BASAL
                                     else .DELIVERING_BOLUS
                     insulinLevel := insulinLevel
                     insulinOnBoard := insulinOnBoard
                     lastBolusTime := c.now
                     lastBolusAmount := units
                     currentError := if low then .LOW_INSULIN else s1.currentError
                     errorMessage := if low then "Low insulin reservoir" else s1.errorMessage })

/-- The reverse scan of `cancelBolus` over the log, most recent event first: the first
bolus event that is not cancelled is marked cancelled; the result is its units and the
scanned list after the change, or nothing when no such event exists. -/
def cancelScan : List Event → Option (ℚ × List Event)
  | [] => none
  | e :: rest =>
    if e.isUncancelledBolus = true then some (e.getUnits, e.setCancelled :: rest)
    else (cancelScan rest).map (fun r => (r.1, e :: r.2))

/-- Member `cancelBolus`. The two updates are exact; `FloatPump.cancelBolus` embeds the
same body over binary32 values, where each update is rounded. -/
def cancelBolus (s : TSlimX2Pump) (c : Clock) : Bool × TSlimX2Pump :=
  if s.currentState ≠ .DELIVERING_BOLUS then (false, s)
  else
    match cancelScan s.eventHistory.reverse with
    | some (units, scanned) =>
      let undeliveredInsulin := units / 2
      let s1 := { s with eventHistory := scanned.reverse
                         insulinLevel := s.insulinLevel + undeliveredInsulin
                         insulinOnBoard := s.insulinOnBoard - undeliveredInsulin }
      let s2 := logEvent s1 (.suspend c.now "Bolus cancelled")
      (true, { s2 with currentState := .DELIVERING_BASAL })
    | none => (false, s)

/-- Member `startBasal`. -/
def startBasal (s : TSlimX2Pump) (c : Clock) : Bool × TSlimX2Pump :=
  if s.currentState = .OFF ∨ s.currentState = .SLEEP ∨ s.currentState = .ERROR then (false, s)
  else if s.insulinLevel ≤ 0 then
    (false, { s with currentError := .LOW_INSULIN,
                     errorMessage := "Cannot start basal: No insulin" })
  else
    let s1 := { s with currentState := .DELIVERING_BASAL }
    match getActiveProfile s1 with
    | some profile =>
      let rate := profile.getBasalRate c.hour c.minute
      (true, logEvent s1 (.basalChange c.now 0 rate "Basal started"))
    | none => (true, s1)

/-- Member `stopBasal`. -/
def stopBasal (s : TSlimX2Pump) (c : Clock) : Bool × TSlimX2Pump :=
  if s.currentState ≠ .DELIVERING_BASAL ∧ s.currentState ≠ .DELIVERING_BOLUS then (false, s)
  else
    (true, logEvent { s with currentState := .SUSPENDED } (.suspend c.now "User stopped insulin"))

/-- Member `resumeBasal`. -/
def resumeBasal (s : TSlimX2Pump) (c : Clock) : Bool × TSlimX2Pump :=
  if s.currentState ≠ .SUSPENDED then (false, s)
  else if s.insulinLevel ≤ 0 then
    (false, { s with currentError := .LOW_INSULIN,
                     errorMessage := "Cannot resume basal: No insulin" })
  else
    let s1 := { s with currentState := .DELIVERING_BASAL }
    match getActiveProfile s1 with
    | some profile =>
      let rate := profile.getBasalRate c.hour c.minute
      let s2 := logEvent s1 (.resume c.now "User resumed insulin")
      (true, logEvent s2 (.basalChange c.now 0 rate "Basal resumed"))
    | none => (true, s1)

/-- Member `getInsulinOnBoard`. -/
def getInsulinOnBoard (s : TSlimX2Pump) : ℚ := s.insulinOnBoard

/-- Member `enableControlIQ`. -/
def enableControlIQ (s : TSlimX2Pump) : Bool × TSlimX2Pump :=
  if s.currentState = .OFF ∨ s.currentState = .ERROR then (false, s)
  else if s.cgmConnected = false then (false, s)
  else (true, { s with controlIQEnabled := true })

/-- Member `disableControlIQ`. -/
def disableControlIQ (s : TSlimX2Pump) : Bool × TSlimX2Pump :=
  (true, { s with controlIQEnabled := false })

/-- Member `calculateSuggestedBolus`. The source under src ends after the correction
component. Modelled from the spec: the rest of the body, where the total of the food
and the correction component is reduced by the insulin on board but never below zero. -/
def calculateSuggestedBolus (s : TSlimX2Pump) (c : Clock) (currentGlucose carbIntake : ℚ) : ℚ :=
  match getActiveProfile s with
  | none => 0
  | some profile =>
    let carbRatio := profile.getCarbRatio c.hour c.minute
    let correctionFactor := profile.getCorrectionFactor c.hour c.minute
    let targetGlucose := profile.getTargetGlucose c.hour c.minute
    let foodBolus := carbIntake / carbRatio
    let glucoseDifference := currentGlucose - targetGlucose
    let correctionBolus := if glucoseDifference > 0 then glucoseDifference / correctionFactor else 0
    let total := foodBolus + correctionBolus - s.insulinOnBoard
    if total < 0 then 0 else total

/-- Modelled from the spec: member `connectCGM` (its body is not under src) sets the
connection flag. -/
def connectCGM (s : TSlimX2Pump) : Bool × TSlimX2Pump :=
  (true, { s with cgmConnected := true })

/-- Modelled from the spec: member `disconnectCGM` (its body is not under src) clears the
connection flag. -/
def disconnectCGM (s : TSlimX2Pump) : Bool × TSlimX2Pump :=
  (true, { s with cgmConnected := false })

/-- Modelled from the spec: member `updateCGMData` (its body is not under src) updates
the current glucose, appends a valid reading to the glucose series and logs a CGM
reading event. -/
def updateCGMData (s : TSlimX2Pump) (c : Clock) (glucoseValue : ℚ) : TSlimX2Pump :=
  let s1 := { s with currentGlucose := glucoseValue
                     glucoseSeries := s.glucoseSeries ++
                       [{ timestamp := c.now, value := glucoseValue, isValid := true }] }
  logEvent s1 (.cgmReading c.now glucoseValue)

/-- Modelled from the spec: member `clearError` (its body is not under src) resets the
error state of the controller. -/
def clearError (s : TSlimX2Pump) : Bool × TSlimX2Pump :=
  (true, { s with currentError := .NONE, errorMessage := "" })

end TSlimX2Pump

/-! ## Sequences of operations -/

/-- A call of one state-changing public member of `TSlimX2Pump`, with its arguments. -/
inductive Op where
  | powerOn
  | powerOff
  | sleep
  | wake
  | chargeBattery (amount : ℚ)
  | refillInsulin (amount : ℚ)
  | createProfile (name : String)
  | updateProfile (name : String) (profile : Option Profile)
  | deleteProfile (name : String)
  | activateProfile (name : String)
  | deliverBolus (units : ℚ) (extended : Bool) (durationMinutes : Int)
  | cancelBolus
  | startBasal
  | stopBasal
  | resumeBasal
  | enableControlIQ
  | disableControlIQ
  | connectCGM
  | disconnectCGM
  | updateCGMData (glucoseValue : ℚ)
  | clearError
deriving DecidableEq

/-- One call on the controller: the boolean result and the state after the call (a call
of the void member `updateCGMData` counts as successful). -/
def step (s : TSlimX2Pump) (c : Clock) : Op → Option (Bool × TSlimX2Pump)
  | .powerOn => some (s.powerOn c)
  | .powerOff => some (s.powerOff c)
  | .sleep => some s.sleep
  | .wake => some s.wake
  | .chargeBattery amount => some (s.chargeBattery amount)
  | .refillInsulin amount => some (s.refillInsulin amount)
  | .createProfile name => some (s.createProfile name)
  | .updateProfile name profile => some (s.updateProfile c name profile)
  | .deleteProfile name => s.deleteProfile c name
  | .activateProfile name => s.activateProfile c name
  | .deliverBolus units extended durationMinutes =>
    some (s.deliverBolus c units extended durationMinutes)
  | .cancelBolus => some (s.cancelBolus c)
  | .startBasal => some (s.startBasal c)
  | .stopBasal => some (s.stopBasal c)
  | .resumeBasal => some (s.resumeBasal c)
  | .enableControlIQ => some s.enableControlIQ
  | .disableControlIQ => some s.disableControlIQ
  | .connectCGM => some s.connectCGM
  | .disconnectCGM => some s.disconnectCGM
  | .updateCGMData glucoseValue => some (true, s.updateCGMData c glucoseValue)
  | .clearError => some s.clearError

/-- The state after a sequence of calls, each made at its own clock reading. -/
def run (s : TSlimX2Pump) : List (Clock × Op) → Option TSlimX2Pump
  | [] => some s
  | (c, op) :: rest =>
    match step s c op with
    | some (_, s1) => run s1 rest
    | none => none

/-- The states that the controller can be in: the constructed state and every state
that a call leaves behind when made in such a state. -/
inductive Reachable : TSlimX2Pump → Prop where
  | init : Reachable TSlimX2Pump.init
  | step {s s1 : TSlimX2Pump} {b : Bool} (c : Clock) (op : Op) :
      Reachable s → step s c op = some (b, s1) → Reachable s1

/-- The insulin that the logged bolus events account for as on board. -/
def loggedUnits (log : List Event) : ℚ :=
  (log.map Event.activeUnits).sum

/-- The invariants of the controller state: the battery is within 0 and 100, the profile
named Default is registered, the active profile name is registered, the insulin on board
is what the logged bolus events account for, no logged event accounts for a negative
amount, the empty name is not registered, and the reservoir is not negative. -/
structure WellFormed (s : TSlimX2Pump) : Prop where
  battery_lower : 0 ≤ s.batteryLevel
  battery_upper : s.batteryLevel ≤ 100
  default_registered : s.profiles.contains "Default" = true
  active_registered : s.profiles.contains s.activeProfileName = true
  on_board_logged : s.insulinOnBoard = loggedUnits s.eventHistory
  logged_nonneg : ∀ e ∈ s.eventHistory, 0 ≤ e.activeUnits
  empty_unregistered : s.profiles.contains "" = false
  reservoir_lower : 0 ≤ s.insulinLevel

/-- The calls that may clear an error: `chargeBattery`, `refillInsulin`, `clearError`. -/
def Op.isCorrective : Op → Bool
  | .chargeBattery _ => true
  | .refillInsulin _ => true
  | .clearError => true
  | _ => false

/-- The permitted change of a logged event across a call: the event stays as it is, or
it is a bolus event whose cancelled flag goes from false to true. -/
def Event.evolves (before after : Event) : Prop :=
  after = before ∨ (before.isUncancelledBolus = true ∧ after = before.setCancelled)

instance Event.decidableEvolves (before after : Event) : Decidable (Event.evolves before after) :=
  inferInstanceAs (Decidable (_ ∨ _))

/-- The order of a time-keyed table, as `std::map<int, float>` keeps it: the keys are
strictly increasing, so each key occurs once. -/
def Settings.Sorted (t : Settings) : Prop :=
  List.Pairwise (fun a b => a.1 < b.1) t

/-- The most recent bolus event of a log, if it has one. -/
def lastBolus (log : List Event) : Option Event :=
  log.reverse.find? Event.isBolus

/-- The invariants that tie the operating state to the logged bolus events: while a
bolus is being delivered the most recent bolus event is an extended one that is not
cancelled, and every cancelled bolus event is an extended one. -/
structure BolusTracked (s : TSlimX2Pump) : Prop where
  delivering : s.currentState = State.DELIVERING_BOLUS →
    ∃ ts u d, lastBolus s.eventHistory = some (Event.bolus ts BolusType.EXTENDED u d false)
  cancelled_extended : ∀ ts bt u d,
    Event.bolus ts bt u d true ∈ s.eventHistory → bt = BolusType.EXTENDED

/-! ## Sample states -/

/-- A clock reading: half past eight in the morning. -/
def Clock.morning : Clock := { now := 1000, hour := 8, minute := 30 }

/-- The controller after power-on and a refill of 300 units. -/
def TSlimX2Pump.ready : TSlimX2Pump :=
  ((TSlimX2Pump.init.powerOn Clock.morning).2.refillInsulin 300).2

/-- The controller while an extended bolus of 10 units over 30 minutes is delivered. -/
def TSlimX2Pump.extending : TSlimX2Pump :=
  (TSlimX2Pump.ready.deliverBolus Clock.morning 10 true 30).2

/-- A sequence of calls: create a profile named Night and activate it. -/
def nightCalls : List (Clock × Op) :=
  [(Clock.morning, .createProfile "Night"), (Clock.morning, .activateProfile "Night")]

/-- The controller after the profile Night was created and activated. -/
def TSlimX2Pump.night : TSlimX2Pump :=
  { TSlimX2Pump.init with
    activeProfileName := "Night"
    profiles := [("Default", defaultProfile), ("Night", Profile.new "Night")]
    eventHistory := [.profileChange 1000 "Default" "Night"] }

/-- The controller after power-on and an attempt to start basal delivery with an empty
reservoir: the error LOW_INSULIN is set. -/
def TSlimX2Pump.dry : TSlimX2Pump :=
  ((TSlimX2Pump.init.powerOn Clock.morning).2.startBasal Clock.morning).2

/-- A sequence of calls: power on, connect the glucose monitor, power off. -/
def dockCalls : List (Clock × Op) :=
  [(Clock.morning, .powerOn), (Clock.morning, .connectCGM), (Clock.morning, .powerOff)]

/-- The controller switched off again with the glucose monitor still connected. -/
def TSlimX2Pump.docked : TSlimX2Pump :=
  { TSlimX2Pump.init with
    cgmConnected := true
    eventHistory := [.resume 1000 "Power on"] }

/-- A sequence of calls: power on, fill the reservoir, start an extended bolus of 100
units, top the reservoir up again, cancel the bolus. -/
def overfill : List (Clock × Op) :=
  [(Clock.morning, .powerOn), (Clock.morning, .refillInsulin 300),
    (Clock.morning, .deliverBolus 100 true 10), (Clock.morning, .refillInsulin 300),
    (Clock.morning, .cancelBolus)]

/-- The table of the example: 0.5 from midnight, 0.8 from 6:00, 0.6 from 22:00, entered
in this order of the boundaries. -/
def Settings.sample : Settings :=
  ((Settings.set 0 (1 / 2) []).set 360 (4 / 5)).set 1320 (3 / 5)

/-! ## Binary32 values (`float`): NaN, infinities and rounding -/

/-- A value of the C++ type `float` (IEEE-754 binary32): a finite number, held as the
rational it denotes, an infinity, or NaN. The sign of a zero is not kept. -/
inductive Binary32 where
  | num (q : ℚ)
  | inf (negative : Bool)
  | nan
deriving DecidableEq

namespace Binary32

/-- The number of binary digits of `n`, counted with at most `fuel` halvings. -/
def bits : Nat → Nat → Nat
  | 0, _ => 0
  | fuel + 1, n => if n = 0 then 0 else bits fuel (n / 2) + 1

/-- The binary exponent of a positive rational `a`: the integer `e` with
`2 ^ e ≤ a < 2 ^ (e + 1)`. -/
def exponent (a : ℚ) : Int :=
  let e0 : Int := (bits a.num.natAbs a.num.natAbs : Int) - (bits a.den a.den : Int)
  if (2 : ℚ) ^ e0 ≤ a then e0 else e0 - 1

/-- The integer nearest to `x`; of two equally near integers the even one. -/
def roundEven (x : ℚ) : Int :=
  let f := ⌊x⌋
  let r := x - f
  if r < 1 / 2 then f else if 1 / 2 < r then f + 1 else if f % 2 = 0 then f else f + 1

/-- The binary32 value of an exact result (round to nearest, ties to even): 24
significant binary digits, least exponent -126 (the subnormal numbers lie below
`2 ^ (-126)` in steps of `2 ^ (-149)`), and an infinity from `2 ^ 128` on. -/
def round (q : ℚ) : Binary32 :=
  if q = 0 then num 0
  else
    let e := max (exponent |q|) (-126)
    let ulp : ℚ := 2 ^ (e - 23)
    let v : ℚ := roundEven (q / ulp) * ulp
    if 2 ^ 128 ≤ |v| then inf (decide (q < 0)) else num v

/-- The operator `+` on two `float` values. -/
def add : Binary32 → Binary32 → Binary32
  | num x, num y => round (x + y)
  | num _, inf n => inf n
  | inf n, num _ => inf n
  | inf m, inf n => if m = n then inf m else nan
  | _, _ => nan

/-- The operator `-` on two `float` values. -/
def sub : Binary32 → Binary32 → Binary32
  | num x, num y => round (x - y)
  | num _, inf n => inf (!n)
  | inf n, num _ => inf n
  | inf m, inf n => if m = n then nan else inf m
  | _, _ => nan

/-- The expression `x / 2.0` stored in a `float`. -/
def half : Binary32 → Binary32
  | num x => round (x / 2)
  | inf n => inf n
  | nan => nan

/-- The comparison `a <= b`: false as soon as one side is NaN. -/
def le : Binary32 → Binary32 → Bool
  | num x, num y => decide (x ≤ y)
  | num _, inf n => !n
  | inf n, num _ => n
  | inf m, inf n => m || !n
  | _, _ => false

/-- The comparison `a < b`: false as soon as one side is NaN. -/
def lt : Binary32 → Binary32 → Bool
  | num x, num y => decide (x < y)
  | num _, inf n => !n
  | inf n, num _ => n
  | inf m, inf n => m && !n
  | _, _ => false

end Binary32

/-- An event as the operations below log it, the `float` payload being a binary32 value:
the bolus event of `deliverBolus`, the resume event of `powerOn` and the suspend event
of `cancelBolus`. -/
inductive FloatEvent where
  | bolus (timestamp : Int) (bolusType : BolusType) (units : Binary32) (durationMinutes : Int)
      (cancelled : Bool)
  | suspend (timestamp : Int) (reason : String)
  | resume (timestamp : Int) (reason : String)
deriving DecidableEq

/-- The members of class `TSlimX2Pump` that the constructor and the members `powerOn`,
`chargeBattery`, `refillInsulin`, `deliverBolus` and `cancelBolus` read or assign, the
`float` members being binary32 values. The other members (profiles, glucose monitor,
Control-IQ) are not touched by these operations. -/
structure FloatPump where
  currentState : State
  currentError : ErrorType
  errorMessage : String
  batteryLevel : Binary32
  insulinLevel : Binary32
  insulinOnBoard : Binary32
  lastBolusTime : Int
  lastBolusAmount : Binary32
  eventHistory : List FloatEvent
deriving DecidableEq

namespace FloatPump

/-- The constructor `TSlimX2Pump::TSlimX2Pump`, on the members kept here. -/
def init : FloatPump :=
  { currentState := .OFF
    currentError := .NONE
    errorMessage := ""
    batteryLevel := .num 100
    insulinLevel := .num 0
    insulinOnBoard := .num 0
    lastBolusTime := 0
    lastBolusAmount := .num 0
    eventHistory := [] }

/-- The helper `logEvent`, as in the exact embedding: the event is added to the end of
the event log. -/
def logEvent (s : FloatPump) (e : FloatEvent) : FloatPump :=
  { s with eventHistory := s.eventHistory ++ [e] }

/-- Member `powerOn`. -/
def powerOn (s : FloatPump) (c : Clock) : Bool × FloatPump :=
  if s.currentState = .OFF then
    if Binary32.le s.batteryLevel (.num 0) = true then
      (false, { s with currentError := .LOW_BATTERY,
                       errorMessage := "Cannot power on: Battery depleted" })
    else
      (true, logEvent { s with currentState := .ON } (.resume c.now "Power on"))
  else (false, s)

/-- Member `chargeBattery`. -/
def chargeBattery (s : FloatPump) (amount : Binary32) : Bool × FloatPump :=
  if Binary32.le amount (.num 0) = true then (false, s)
  else
    let raised := Binary32.add s.batteryLevel amount
    let batteryLevel := if Binary32.lt (.num 100) raised = true then .num 100 else raised
    let cleared := s.currentError = .LOW_BATTERY ∧ Binary32.lt (.num 15) batteryLevel = true
    (true, { s with batteryLevel := batteryLevel
                    currentError := if cleared then .NONE else s.currentError
                    errorMessage := if cleared then "" else s.errorMessage })

/-- Member `refillInsulin`. -/
def refillInsulin (s : FloatPump) (amount : Binary32) : Bool × FloatPump :=
  if Binary32.le amount (.num 0) = true then (false, s)
  else if s.currentState = .OFF then (false, s)
  else
    let maxCapacity : Binary32 := .num 300
    let newLevel := Binary32.add s.insulinLevel amount
    let insulinLevel := if Binary32.lt maxCapacity newLevel = true then maxCapacity else newLevel
    let cleared := s.currentError = .LOW_INSULIN ∧ Binary32.lt (.num 50) insulinLevel = true
    (true, { s with insulinLevel := insulinLevel
                    currentError := if cleared then .NONE else s.currentError
                    errorMessage := if cleared then "" else s.errorMessage })

/-- Member `deliverBolus`. -/
def deliverBolus (s : FloatPump) (c : Clock) (units : Binary32) (extended : Bool)
    (durationMinutes : Int) : Bool × FloatPump :=
  if s.currentState = .OFF ∨ s.currentState = .SLEEP ∨ s.currentState = .ERROR then (false, s)
  else if Binary32.le units (.num 0) = true ∨ Binary32.lt s.insulinLevel units = true then
    (false, s)
  else if extended = true ∧ durationMinutes ≤ 0 then (false, s)
  else
    let bolusType := if extended = true then BolusType.EXTENDED else BolusType.MANUAL
    let s1 := logEvent s (.bolus c.now bolusType units durationMinutes false)
    let insulinLevel := Binary32.sub s1.insulinLevel units
    let insulinOnBoard := Binary32.add s1.insulinOnBoard units
    let low := Binary32.lt insulinLevel (.num 50) = true ∧ s1.currentError = .NONE
    (true, { s1 with currentState := if extended = false then .DELIVERING_BASAL
                                     else .DELIVERING_BOLUS
                     insulinLevel := insulinLevel
                     insulinOnBoard := insulinOnBoard
                     lastBolusTime := c.now
                     lastBolusAmount := units
                     currentError := if low then .LOW_INSULIN else s1.currentError
                     errorMessage := if low then "Low insulin reservoir" else s1.errorMessage })

/-- The reverse scan of `cancelBolus` over the log, most recent event first: the first
bolus event that is not cancelled is marked cancelled; the result is its units and the
scanned list after the change, or nothing when no such event exists. -/
def cancelScan : List FloatEvent → Option (Binary32 × List FloatEvent)
  | [] => none
  | .bolus ts bt units d false :: rest => some (units, .bolus ts bt units d true :: rest)
  | e :: rest => (cancelScan rest).map (fun r => (r.1, e :: r.2))

/-- Member `cancelBolus`. -/
def cancelBolus (s : FloatPump) (c : Clock) : Bool × FloatPump :=
  if s.currentState ≠ .DELIVERING_BOLUS then (false, s)
  else
    match cancelScan s.eventHistory.reverse with
    | some (units, scanned) =>
      let undeliveredInsulin := Binary32.half units
      let s1 := { s with eventHistory := scanned.reverse
                         insulinLevel := Binary32.add s.insulinLevel undeliveredInsulin
                         insulinOnBoard := Binary32.sub s.insulinOnBoard undeliveredInsulin }
      let s2 := logEvent s1 (.suspend c.now "Bolus cancelled")
      (true, { s2 with currentState := .DELIVERING_BASAL })
    | none => (false, s)

/-- The controller after power-on and a refill of 300 units. -/
def ready : FloatPump :=
  ((init.powerOn Clock.morning).2.refillInsulin (.num 300)).2

/-- The ready controller while an extended bolus of 0.1 units (as a `float`: the binary32
value nearest to one tenth) over 10 minutes is delivered. -/
def dosing : FloatPump :=
  (ready.deliverBolus Clock.morning (Binary32.round (1 / 10)) true 10).2

end FloatPump

end InsulinPump

/-! # Theorems -/

namespace InsulinPump

open TSlimX2Pump

/-! ## Sample states, evaluated -/

theorem ready_eq :
    ready = { init with currentState := .ON, insulinLevel := 300,
                        eventHistory := [.resume 1000 "Power on"] } := by
  simp +decide [ready, powerOn, refillInsulin, init, logEvent, Clock.morning]

theorem extending_eq :
    extending = { init with currentState := .DELIVERING_BOLUS, insulinLevel := 290,
                            insulinOnBoard := 10, lastBolusTime := 1000, lastBolusAmount := 10,
                            eventHistory := [.resume 1000 "Power on",
                              .bolus 1000 .EXTENDED 10 30 false] } := by
  rw [extending, ready_eq]
  simp +decide [deliverBolus, init, logEvent, Clock.morning, Event.mkBolus]
  norm_num

/-! ## deliverBolus -/

theorem deliverBolus_refused (s : TSlimX2Pump) (c : Clock) (units : ℚ) (extended : Bool)
    (durationMinutes : Int)
    (h : (s.currentState = .OFF ∨ s.currentState = .SLEEP ∨ s.currentState = .ERROR) ∨
      (units ≤ 0 ∨ s.insulinLevel < units) ∨ (extended = true ∧ durationMinutes ≤ 0)) :
    s.deliverBolus c units extended durationMinutes = (false, s) := by
  unfold deliverBolus
  by_cases h1 : s.currentState = .OFF ∨ s.currentState = .SLEEP ∨ s.currentState = .ERROR
  · rw [if_pos h1]
  · rw [if_neg h1]
    by_cases h2 : units ≤ 0 ∨ s.insulinLevel < units
    · rw [if_pos h2]
    · rw [if_neg h2]
      by_cases h3 : extended = true ∧ durationMinutes ≤ 0
      · rw [if_pos h3]
      · rcases h with h | h | h <;> contradiction

theorem deliverBolus_accepted (s : TSlimX2Pump) (c : Clock) (units : ℚ) (extended : Bool)
    (durationMinutes : Int)
    (h1 : ¬(s.currentState = .OFF ∨ s.currentState = .SLEEP ∨ s.currentState = .ERROR))
    (h2 : ¬(units ≤ 0 ∨ s.insulinLevel < units))
    (h3 : ¬(extended = true ∧ durationMinutes ≤ 0)) :
    s.deliverBolus c units extended durationMinutes =
      (true,
        { s with
          currentState := if extended = false then .DELIVERING_BASAL else .DELIVERING_BOLUS
          insulinLevel := s.insulinLevel - units
          insulinOnBoard := s.insulinOnBoard + units
          lastBolusTime := c.now
          lastBolusAmount := units
          currentError :=
            if s.insulinLevel - units < 50 ∧ s.currentError = .NONE then .LOW_INSULIN
            else s.currentError
          errorMessage :=
            if s.insulinLevel - units < 50 ∧ s.currentError = .NONE then "Low insulin reservoir"
            else s.errorMessage
          eventHistory := s.eventHistory ++
            [Event.bolus c.now (if extended = true then .EXTENDED else .MANUAL) units
              durationMinutes false] }) := by
  unfold deliverBolus
  rw [if_neg h1, if_neg h2, if_neg h3]
  rfl

/-- The two outcomes of `deliverBolus`: a guard fails and the call is refused, or all
guards pass and the call is accepted. -/
theorem deliverBolus_cases (s : TSlimX2Pump) (units : ℚ) (extended : Bool)
    (durationMinutes : Int) :
    ((s.currentState = .OFF ∨ s.currentState = .SLEEP ∨ s.currentState = .ERROR) ∨
        (units ≤ 0 ∨ s.insulinLevel < units) ∨ (extended = true ∧ durationMinutes ≤ 0)) ∨
      (¬(s.currentState = .OFF ∨ s.currentState = .SLEEP ∨ s.currentState = .ERROR) ∧
        ¬(units ≤ 0 ∨ s.insulinLevel < units) ∧ ¬(extended = true ∧ durationMinutes ≤ 0)) := by
  by_cases h1 : s.currentState = .OFF ∨ s.currentState = .SLEEP ∨ s.currentState = .ERROR
  · exact Or.inl (Or.inl h1)
  · by_cases h2 : units ≤ 0 ∨ s.insulinLevel < units
    · exact Or.inl (Or.inr (Or.inl h2))
    · by_cases h3 : extended = true ∧ durationMinutes ≤ 0
      · exact Or.inl (Or.inr (Or.inr h3))
      · exact Or.inr ⟨h1, h2, h3⟩

/-- Exact embedding, the units being a number: in a state whose reservoir is not
negative, `deliverBolus` returns failure whenever the requested units exceed the
reservoir, and the reservoir after the call is still not negative. (The argument NaN
is treated in the section on binary32 values.) -/
theorem deliverBolus_reservoir_safe (s : TSlimX2Pump) (c : Clock) (units : ℚ) (extended : Bool)
    (durationMinutes : Int) (h : 0 ≤ s.insulinLevel) :
    (units > s.insulinLevel → (s.deliverBolus c units extended durationMinutes).1 = false) ∧
      0 ≤ (s.deliverBolus c units extended durationMinutes).2.insulinLevel := by
  constructor
  · intro hu
    rw [deliverBolus_refused s c units extended durationMinutes (Or.inr (Or.inl (Or.inr hu)))]
  · rcases deliverBolus_cases s units extended durationMinutes with hr | ⟨h1, h2, h3⟩
    · rw [deliverBolus_refused s c units extended durationMinutes hr]
      exact h
    · rw [deliverBolus_accepted s c units extended durationMinutes h1 h2 h3]
      push_neg at h2
      show 0 ≤ s.insulinLevel - units
      linarith [h2.2]

/-- Example: the ready controller holds 300 units, so a bolus of 301 units is refused and
the reservoir stays non-negative. -/
theorem deliverBolus_reservoir_safe_witness :
    0 ≤ ready.insulinLevel ∧
      (((301 : ℚ) > ready.insulinLevel →
          (ready.deliverBolus Clock.morning 301 false 0).1 = false) ∧
        0 ≤ (ready.deliverBolus Clock.morning 301 false 0).2.insulinLevel) :=
  ⟨by rw [ready_eq]; norm_num [init],
    deliverBolus_reservoir_safe ready Clock.morning 301 false 0
      (by rw [ready_eq]; norm_num [init])⟩

/-- Exact embedding, the units and the reservoir being numbers: `deliverBolus` succeeds
if and only if the state is none of OFF, SLEEP and ERROR, the units are positive and at
most the reservoir, and an extended bolus has a positive duration; a failing call leaves
the whole controller state unchanged. (The argument NaN is treated in
the section on binary32 values.) -/
theorem deliverBolus_succeeds_iff (s : TSlimX2Pump) (c : Clock) (units : ℚ) (extended : Bool)
    (durationMinutes : Int) :
    ((s.deliverBolus c units extended durationMinutes).1 = true ↔
        (s.currentState ≠ .OFF ∧ s.currentState ≠ .SLEEP ∧ s.currentState ≠ .ERROR) ∧
          0 < units ∧ units ≤ s.insulinLevel ∧ (extended = true → 0 < durationMinutes)) ∧
      ((s.deliverBolus c units extended durationMinutes).1 = false →
        (s.deliverBolus c units extended durationMinutes).2 = s) := by
  rcases deliverBolus_cases s units extended durationMinutes with hr | ⟨h1, h2, h3⟩
  · rw [deliverBolus_refused s c units extended durationMinutes hr]
    refine ⟨Iff.intro (fun h => by cases h) ?_, fun _ => rfl⟩
    rintro ⟨⟨a, b, d⟩, hu, hl, hd⟩
    rcases hr with (h | h | h) | (h | h) | ⟨he, h⟩
    · exact absurd h a
    · exact absurd h b
    · exact absurd h d
    · linarith
    · linarith
    · have := hd he
      omega
  · rw [deliverBolus_accepted s c units extended durationMinutes h1 h2 h3]
    push_neg at h1 h2 h3
    exact ⟨⟨fun _ => ⟨h1, h2.1, h2.2, h3⟩, fun _ => rfl⟩, fun h => by cases h⟩

/-- The scan finds nothing exactly when the list has no bolus that is not cancelled. -/
theorem cancelScan_none (l : List Event) (h : ∀ e ∈ l, e.isUncancelledBolus = false) :
    cancelScan l = none := by
  induction l with
  | nil => rfl
  | cons a rest ih =>
    have ha : a.isUncancelledBolus = false := h a (List.mem_cons_self _ _)
    have hr := ih (fun e he => h e (List.mem_cons_of_mem _ he))
    simp [cancelScan, ha, hr]

theorem cancelBolus_found (s : TSlimX2Pump) (c : Clock) (u : ℚ) (scanned : List Event)
    (hs : s.currentState = .DELIVERING_BOLUS)
    (hscan : cancelScan s.eventHistory.reverse = some (u, scanned)) :
    s.cancelBolus c =
      (true, { s with currentState := .DELIVERING_BASAL
                      insulinLevel := s.insulinLevel + u / 2
                      insulinOnBoard := s.insulinOnBoard - u / 2
                      eventHistory := scanned.reverse ++
                        [Event.suspend c.now "Bolus cancelled"] }) := by
  unfold cancelBolus
  rw [if_neg (not_not.mpr hs), hscan]
  rfl

theorem cancelBolus_idle (s : TSlimX2Pump) (c : Clock)
    (hs : s.currentState ≠ .DELIVERING_BOLUS) : s.cancelBolus c = (false, s) := by
  unfold cancelBolus
  rw [if_pos hs]

theorem cancelBolus_not_found (s : TSlimX2Pump) (c : Clock)
    (hscan : cancelScan s.eventHistory.reverse = none) : s.cancelBolus c = (false, s) := by
  unfold cancelBolus
  rw [hscan]
  split_ifs <;> rfl

theorem Registry.contains_iff (r : Registry) (key : String) :
    r.contains key = true ↔ key ∈ r.map Prod.fst := by
  induction r with
  | nil => simp [Registry.contains, Registry.find]
  | cons e rest ih =>
    obtain ⟨k, q⟩ := e
    unfold Registry.contains at ih ⊢
    unfold Registry.find
    by_cases hk : k = key
    · rw [if_pos hk]
      simp [hk]
    · rw [if_neg hk, ih]
      simp [Ne.symm hk]

theorem Registry.keys_assign (r : Registry) (name key : String) (p : Profile) :
    key ∈ (r.assign name p).map Prod.fst ↔ key = name ∨ key ∈ r.map Prod.fst := by
  induction r with
  | nil => simp [Registry.assign]
  | cons e rest ih =>
    obtain ⟨k, q⟩ := e
    unfold Registry.assign
    by_cases hk : k = name
    · rw [if_pos hk]
      simp only [List.map_cons, List.mem_cons]
      constructor
      · rintro (h | h)
        · exact Or.inr (Or.inl h)
        · exact Or.inr (Or.inr h)
      · rintro (h | h | h)
        · exact Or.inl (h.trans hk.symm)
        · exact Or.inl h
        · exact Or.inr h
    · rw [if_neg hk]
      simp only [List.map_cons, List.mem_cons, ih]
      tauto

theorem Registry.keys_erase (r : Registry) (name key : String) :
    key ∈ (r.erase name).map Prod.fst ↔ key ≠ name ∧ key ∈ r.map Prod.fst := by
  unfold Registry.erase
  simp only [List.mem_map, List.mem_filter, decide_eq_true_eq]
  constructor
  · rintro ⟨e, ⟨he, hne⟩, rfl⟩
    exact ⟨hne, e, he, rfl⟩
  · rintro ⟨hne, e, he, rfl⟩
    exact ⟨e, ⟨he, hne⟩, rfl⟩

theorem Registry.contains_assign_self (r : Registry) (name : String) (p : Profile) :
    (r.assign name p).contains name = true :=
  (Registry.contains_iff _ _).mpr ((Registry.keys_assign r name name p).mpr (Or.inl rfl))

theorem Registry.contains_assign_of_contains (r : Registry) (name key : String) (p : Profile)
    (h : r.contains key = true) : (r.assign name p).contains key = true :=
  (Registry.contains_iff _ _).mpr
    ((Registry.keys_assign r name key p).mpr (Or.inr ((Registry.contains_iff _ _).mp h)))

theorem Registry.contains_erase_of_ne (r : Registry) (name key : String) (hne : key ≠ name)
    (h : r.contains key = true) : (r.erase name).contains key = true :=
  (Registry.contains_iff _ _).mpr
    ((Registry.keys_erase r name key).mpr ⟨hne, (Registry.contains_iff _ _).mp h⟩)

theorem Registry.contains_erase_self (r : Registry) (name : String) :
    (r.erase name).contains name = false := by
  cases hc : (r.erase name).contains name with
  | false => rfl
  | true =>
    have := (Registry.keys_erase r name name).mp ((Registry.contains_iff _ _).mp hc)
    exact absurd rfl this.1

theorem Registry.contains_assign_of_not_contains (r : Registry) (name key : String)
    (p : Profile) (hne : key ≠ name) (h : r.contains key = false) :
    (r.assign name p).contains key = false := by
  cases hc : (r.assign name p).contains key with
  | false => rfl
  | true =>
    rcases (Registry.keys_assign r name key p).mp ((Registry.contains_iff _ _).mp hc) with
      hk | hk
    · exact absurd hk hne
    · rw [(Registry.contains_iff _ _).mpr hk] at h
      cases h

theorem Registry.contains_erase_of_not_contains (r : Registry) (name key : String)
    (h : r.contains key = false) : (r.erase name).contains key = false := by
  cases hc : (r.erase name).contains key with
  | false => rfl
  | true =>
    have hk := ((Registry.keys_erase r name key).mp ((Registry.contains_iff _ _).mp hc)).2
    rw [(Registry.contains_iff _ _).mpr hk] at h
    cases h

theorem Registry.contains_true_find (r : Registry) (key : String)
    (h : r.contains key = true) : ∃ p, r.find key = some p := by
  unfold Registry.contains at h
  exact Option.isSome_iff_exists.mp h

/-! ## Accounting of the logged units -/

theorem loggedUnits_append (l1 l2 : List Event) :
    loggedUnits (l1 ++ l2) = loggedUnits l1 + loggedUnits l2 := by
  simp [loggedUnits, List.map_append, List.sum_append]

theorem loggedUnits_reverse (l : List Event) : loggedUnits l.reverse = loggedUnits l := by
  simp [loggedUnits, List.map_reverse, List.sum_reverse]

theorem loggedUnits_cons (e : Event) (l : List Event) :
    loggedUnits (e :: l) = e.activeUnits + loggedUnits l := by
  simp [loggedUnits]

/-- An event that is no bolus accounts for no insulin. -/
theorem activeUnits_of_not_bolus (e : Event) (h : e.isBolus = false) : e.activeUnits = 0 := by
  cases e <;> simp_all [Event.isBolus, Event.activeUnits]

/-- Appending events that are no bolus leaves the accounted units unchanged. -/
theorem loggedUnits_append_other (l evs : List Event) (h : ∀ e ∈ evs, e.isBolus = false) :
    loggedUnits (l ++ evs) = loggedUnits l := by
  rw [loggedUnits_append]
  have : loggedUnits evs = 0 := by
    induction evs with
    | nil => rfl
    | cons a rest ih =>
      rw [loggedUnits_cons, activeUnits_of_not_bolus a (h a (List.mem_cons_self _ _)),
        ih (fun e he => h e (List.mem_cons_of_mem _ he))]
      norm_num
  rw [this, add_zero]

/-- The reverse scan takes half the units of the cancelled bolus out of the accounted
units and keeps every event's share non-negative. -/
theorem cancelScan_logged (l scanned : List Event) (u : ℚ)
    (h : cancelScan l = some (u, scanned)) :
    loggedUnits scanned = loggedUnits l - u / 2 ∧
      ((∀ e ∈ l, 0 ≤ e.activeUnits) → (∀ e ∈ scanned, 0 ≤ e.activeUnits) ∧ 0 ≤ u) := by
  induction l generalizing scanned with
  | nil => simp [cancelScan] at h
  | cons a rest ih =>
    unfold cancelScan at h
    by_cases ha : a.isUncancelledBolus = true
    · rw [if_pos ha] at h
      cases a with
      | bolus ts bt v d cancelled =>
        cases cancelled with
        | true => simp [Event.isUncancelledBolus] at ha
        | false =>
          simp only [Option.some.injEq, Prod.mk.injEq, Event.getUnits, Event.setCancelled] at h
          obtain ⟨rfl, rfl⟩ := h
          constructor
          · rw [loggedUnits_cons, loggedUnits_cons]
            simp only [Event.activeUnits, if_true, Bool.false_eq_true, if_false]
            ring
          · intro hall
            have hv := hall _ (List.mem_cons_self _ _)
            simp only [Event.activeUnits, Bool.false_eq_true, if_false] at hv
            refine ⟨?_, hv⟩
            intro e he
            rcases List.mem_cons.mp he with rfl | he
            · simp only [Event.activeUnits, if_true]
              linarith
            · exact hall e (List.mem_cons_of_mem _ he)
      | _ => simp [Event.isUncancelledBolus] at ha
    · rw [if_neg ha] at h
      cases hr : cancelScan rest with
      | none => simp [hr] at h
      | some r =>
        obtain ⟨u', scanned'⟩ := r
        simp only [hr, Option.map_some', Option.some.injEq, Prod.mk.injEq] at h
        obtain ⟨rfl, rfl⟩ := h
        obtain ⟨h1, h2⟩ := ih scanned' hr
        constructor
        · rw [loggedUnits_cons, loggedUnits_cons, h1]
          ring
        · intro hall
          obtain ⟨h3, h4⟩ := h2 (fun x hx => hall x (List.mem_cons_of_mem _ hx))
          refine ⟨?_, h4⟩
          intro e he
          rcases List.mem_cons.mp he with rfl | he
          · exact hall _ (List.mem_cons_self _ _)
          · exact h3 e he

/-! ## Profile activation and deletion -/

/-- The outcomes of `activateProfile`: it refuses an unregistered (or empty) name and
changes nothing, or it makes the name active and appends events that are no bolus. -/
theorem activateProfile_cases (s s1 : TSlimX2Pump) (c : Clock) (name : String) (b : Bool)
    (h : s.activateProfile c name = some (b, s1)) :
    (b = false ∧ s1 = s ∧ (name = "" ∨ s.profiles.contains name = false)) ∨
      (b = true ∧ name ≠ "" ∧ s.profiles.contains name = true ∧
        ∃ evs, (∀ e ∈ evs, e.isBolus = false) ∧
          s1 = { s with activeProfileName := name, eventHistory := s.eventHistory ++ evs }) := by
  unfold activateProfile at h
  by_cases hg : name = "" ∨ s.profiles.contains name = false
  · rw [if_pos hg] at h
    simp only [Option.some.injEq, Prod.mk.injEq] at h
    exact Or.inl ⟨h.1.symm, h.2.symm, hg⟩
  · rw [if_neg hg] at h
    push_neg at hg
    have hreg : s.profiles.contains name = true := by simpa using hg.2
    right
    by_cases hst : s.currentState = .DELIVERING_BASAL
    · simp only [logEvent, hst, if_true, getProfile] at h
      cases ho : s.profiles.find s.activeProfileName with
      | none => simp [ho] at h
      | some oldProfile =>
        cases hn : s.profiles.find name with
        | none => simp [ho, hn] at h
        | some newProfile =>
          simp only [ho, hn] at h
          by_cases hr : oldProfile.getBasalRate c.hour c.minute ≠
              newProfile.getBasalRate c.hour c.minute
          · rw [if_pos hr] at h
            simp only [Option.some.injEq, Prod.mk.injEq] at h
            refine ⟨h.1.symm, hg.1, hreg,
              [Event.profileChange c.now s.activeProfileName name,
                Event.basalChange c.now (oldProfile.getBasalRate c.hour c.minute)
                  (newProfile.getBasalRate c.hour c.minute) "Profile change"], ?_, ?_⟩
            · intro e he
              simp only [List.mem_cons, List.mem_singleton, List.not_mem_nil, or_false] at he
              rcases he with rfl | rfl <;> rfl
            · rw [← h.2, ← hst]
              simp
          · rw [if_neg hr] at h
            simp only [Option.some.injEq, Prod.mk.injEq] at h
            refine ⟨h.1.symm, hg.1, hreg,
              [Event.profileChange c.now s.activeProfileName name], ?_, ?_⟩
            · intro e he
              simp only [List.mem_singleton] at he
              subst he
              rfl
            · rw [← h.2, ← hst]
    · simp only [logEvent, hst, if_false, Option.some.injEq, Prod.mk.injEq] at h
      refine ⟨h.1.symm, hg.1, hreg, [Event.profileChange c.now s.activeProfileName name], ?_, ?_⟩
      · intro e he
        simp only [List.mem_singleton] at he
        subst he
        rfl
      · rw [← h.2]

/-- On a state whose active profile is registered, `activateProfile` has a result. -/
theorem activateProfile_defined (s : TSlimX2Pump) (c : Clock) (name : String)
    (ha : s.profiles.contains s.activeProfileName = true) :
    ∃ r, s.activateProfile c name = some r := by
  unfold activateProfile
  by_cases hg : name = "" ∨ s.profiles.contains name = false
  · rw [if_pos hg]
    exact ⟨_, rfl⟩
  · rw [if_neg hg]
    push_neg at hg
    have hreg : s.profiles.contains name = true := by simpa using hg.2
    obtain ⟨po, hpo⟩ := Registry.contains_true_find _ _ ha
    obtain ⟨pn, hpn⟩ := Registry.contains_true_find _ _ hreg
    by_cases hst : s.currentState = .DELIVERING_BASAL
    · simp only [logEvent, hst, if_true, getProfile, hpo, hpn]
      split_ifs <;> exact ⟨_, rfl⟩
    · simp only [logEvent, hst, if_false]
      exact ⟨_, rfl⟩

/-- The outcomes of `deleteProfile`: it refuses the name Default, the empty name and an
unregistered name and changes nothing; otherwise it erases the name, after activating
Default when the name was the active one. -/
theorem deleteProfile_cases (s s1 : TSlimX2Pump) (c : Clock) (name : String) (b : Bool)
    (h : s.deleteProfile c name = some (b, s1)) :
    (b = false ∧ s1 = s ∧
        (name = "Default" ∨ name = "" ∨ s.profiles.contains name = false)) ∨
      (b = true ∧ name ≠ "Default" ∧ name ≠ "" ∧ s.profiles.contains name = true ∧
        ∃ evs active, (∀ e ∈ evs, e.isBolus = false) ∧
          s1 = { s with activeProfileName := active
                        eventHistory := s.eventHistory ++ evs
                        profiles := s.profiles.erase name } ∧
          ((name ≠ s.activeProfileName ∧ active = s.activeProfileName) ∨
            (name = s.activeProfileName ∧ s.profiles.contains "Default" = true ∧
              active = "Default") ∨
            (name = s.activeProfileName ∧ s.profiles.contains "Default" = false ∧
              active = s.activeProfileName))) := by
  unfold deleteProfile at h
  by_cases hg : name = "Default" ∨ name = "" ∨ s.profiles.contains name = false
  · rw [if_pos hg] at h
    simp only [Option.some.injEq, Prod.mk.injEq] at h
    exact Or.inl ⟨h.1.symm, h.2.symm, hg⟩
  · rw [if_neg hg] at h
    push_neg at hg
    have hreg : s.profiles.contains name = true := by simpa using hg.2.2
    right
    by_cases hact : name = s.activeProfileName
    · rw [if_pos hact] at h
      cases hr : s.activateProfile c "Default" with
      | none => simp [hr] at h
      | some r =>
        obtain ⟨b2, s2⟩ := r
        simp only [hr, Option.map_some', Option.some.injEq, Prod.mk.injEq] at h
        rcases activateProfile_cases s s2 c "Default" b2 hr with
          ⟨-, hs2, hno⟩ | ⟨-, -, hdef, evs, hevs, hs2⟩
        · have hnd : s.profiles.contains "Default" = false := by
            rcases hno with h0 | h0
            · exact absurd h0 (by decide)
            · exact h0
          refine ⟨h.1.symm, hg.1, hg.2.1, hreg, [], s.activeProfileName, by simp, ?_,
            Or.inr (Or.inr ⟨hact, hnd, rfl⟩)⟩
          rw [← h.2, hs2]
          simp
        · refine ⟨h.1.symm, hg.1, hg.2.1, hreg, evs, "Default", hevs, ?_,
            Or.inr (Or.inl ⟨hact, hdef, rfl⟩)⟩
          rw [← h.2, hs2]
    · rw [if_neg hact] at h
      simp only [Option.map_some', Option.some.injEq, Prod.mk.injEq] at h
      refine ⟨h.1.symm, hg.1, hg.2.1, hreg, [], s.activeProfileName, by simp, ?_,
        Or.inl ⟨hact, rfl⟩⟩
      rw [← h.2]
      simp

/-- On a state whose active profile is registered, `deleteProfile` has a result. -/
theorem deleteProfile_defined (s : TSlimX2Pump) (c : Clock) (name : String)
    (ha : s.profiles.contains s.activeProfileName = true) :
    ∃ r, s.deleteProfile c name = some r := by
  unfold deleteProfile
  by_cases hg : name = "Default" ∨ name = "" ∨ s.profiles.contains name = false
  · rw [if_pos hg]
    exact ⟨_, rfl⟩
  · rw [if_neg hg]
    by_cases hact : name = s.activeProfileName
    · rw [if_pos hact]
      obtain ⟨r, hr⟩ := activateProfile_defined s c "Default" ha
      rw [hr]
      exact ⟨_, rfl⟩
    · rw [if_neg hact]
      exact ⟨_, rfl⟩

/-! ## The state invariants are kept by every operation -/

/-- A call that leaves the battery, the registry, the active profile name, the insulin on
board and the reservoir as they are and appends only events that are no bolus keeps the
invariants. -/
theorem WellFormed.of_frame {s s1 : TSlimX2Pump} (h : WellFormed s) (evs : List Event)
    (hb : s1.batteryLevel = s.batteryLevel) (hp : s1.profiles = s.profiles)
    (ha : s1.activeProfileName = s.activeProfileName)
    (hi : s1.insulinOnBoard = s.insulinOnBoard) (hl : s1.insulinLevel = s.insulinLevel)
    (he : s1.eventHistory = s.eventHistory ++ evs)
    (hevs : ∀ e ∈ evs, e.isBolus = false) : WellFormed s1 where
  battery_lower := hb ▸ h.battery_lower
  battery_upper := hb ▸ h.battery_upper
  default_registered := hp ▸ h.default_registered
  active_registered := by rw [hp, ha]; exact h.active_registered
  on_board_logged := by rw [hi, he, loggedUnits_append_other _ _ hevs]; exact h.on_board_logged
  logged_nonneg := by
    intro e hmem
    rw [he] at hmem
    rcases List.mem_append.mp hmem with hm | hm
    · exact h.logged_nonneg e hm
    · rw [activeUnits_of_not_bolus e (hevs e hm)]
  empty_unregistered := hp ▸ h.empty_unregistered
  reservoir_lower := hl ▸ h.reservoir_lower

theorem WellFormed.init : WellFormed TSlimX2Pump.init where
  battery_lower := by norm_num [TSlimX2Pump.init]
  battery_upper := by norm_num [TSlimX2Pump.init]
  default_registered := Registry.contains_assign_self _ _ _
  active_registered := Registry.contains_assign_self _ _ _
  on_board_logged := by simp [TSlimX2Pump.init, loggedUnits]
  logged_nonneg := by simp [TSlimX2Pump.init]
  empty_unregistered := by decide
  reservoir_lower := by norm_num [TSlimX2Pump.init]

theorem WellFormed.powerOn {s : TSlimX2Pump} (h : WellFormed s) (c : Clock) :
    WellFormed (s.powerOn c).2 := by
  unfold TSlimX2Pump.powerOn
  split_ifs
  · exact h.of_frame [] rfl rfl rfl rfl rfl (List.append_nil _).symm (by simp)
  · exact h.of_frame [_] rfl rfl rfl rfl rfl rfl (by intro e he; simp at he; subst he; rfl)
  · exact h

theorem WellFormed.powerOff {s : TSlimX2Pump} (h : WellFormed s) (c : Clock) :
    WellFormed (s.powerOff c).2 := by
  unfold TSlimX2Pump.powerOff
  split_ifs
  · exact h.of_frame [_] rfl rfl rfl rfl rfl rfl (by intro e he; simp at he; subst he; rfl)
  · exact h.of_frame [] rfl rfl rfl rfl rfl (List.append_nil _).symm (by simp)
  · exact h

theorem WellFormed.sleep {s : TSlimX2Pump} (h : WellFormed s) : WellFormed s.sleep.2 := by
  unfold TSlimX2Pump.sleep
  split_ifs
  · exact h.of_frame [] rfl rfl rfl rfl rfl (List.append_nil _).symm (by simp)
  · exact h

theorem WellFormed.wake {s : TSlimX2Pump} (h : WellFormed s) : WellFormed s.wake.2 := by
  unfold TSlimX2Pump.wake
  split_ifs
  · exact h.of_frame [] rfl rfl rfl rfl rfl (List.append_nil _).symm (by simp)
  · exact h

theorem WellFormed.chargeBattery {s : TSlimX2Pump} (h : WellFormed s) (amount : ℚ) :
    WellFormed (s.chargeBattery amount).2 := by
  unfold TSlimX2Pump.chargeBattery
  by_cases ha : amount ≤ 0
  · rw [if_pos ha]
    exact h
  · rw [if_neg ha]
    have hpos : 0 < amount := not_le.mp ha
    have hlow := h.battery_lower
    refine ⟨?_, ?_, h.default_registered, h.active_registered, h.on_board_logged,
      h.logged_nonneg, h.empty_unregistered, h.reservoir_lower⟩
    · show 0 ≤ (if s.batteryLevel + amount > 100 then 100 else s.batteryLevel + amount)
      split_ifs
      · norm_num
      · linarith
    · show (if s.batteryLevel + amount > 100 then 100 else s.batteryLevel + amount) ≤ 100
      split_ifs with hgt
      · exact le_refl _
      · exact not_lt.mp hgt

theorem WellFormed.refillInsulin {s : TSlimX2Pump} (h : WellFormed s) (amount : ℚ) :
    WellFormed (s.refillInsulin amount).2 := by
  unfold TSlimX2Pump.refillInsulin
  by_cases ha : amount ≤ 0
  · rw [if_pos ha]
    exact h
  · rw [if_neg ha]
    by_cases hs : s.currentState = .OFF
    · rw [if_pos hs]
      exact h
    · rw [if_neg hs]
      have hpos : 0 < amount := not_le.mp ha
      have hlow := h.reservoir_lower
      refine ⟨h.battery_lower, h.battery_upper, h.default_registered, h.active_registered,
        h.on_board_logged, h.logged_nonneg, h.empty_unregistered, ?_⟩
      show 0 ≤ (if s.insulinLevel + amount > 300 then 300 else s.insulinLevel + amount)
      split_ifs
      · norm_num
      · linarith

theorem WellFormed.createProfile {s : TSlimX2Pump} (h : WellFormed s) (name : String) :
    WellFormed (s.createProfile name).2 := by
  unfold TSlimX2Pump.createProfile
  split_ifs with hg
  · exact h
  · push_neg at hg
    exact ⟨h.battery_lower, h.battery_upper,
      Registry.contains_assign_of_contains _ _ _ _ h.default_registered,
      Registry.contains_assign_of_contains _ _ _ _ h.active_registered,
      h.on_board_logged, h.logged_nonneg,
      Registry.contains_assign_of_not_contains _ _ _ _ (Ne.symm hg.1) h.empty_unregistered,
      h.reservoir_lower⟩

theorem WellFormed.updateProfile {s : TSlimX2Pump} (h : WellFormed s) (c : Clock)
    (name : String) (profile : Option Profile) :
    WellFormed (s.updateProfile c name profile).2 := by
  unfold TSlimX2Pump.updateProfile
  cases profile with
  | none => exact h
  | some p =>
    simp only
    split_ifs with hg
    · exact h
    · push_neg at hg
      have hbase : WellFormed { s with profiles := s.profiles.assign name p } :=
        ⟨h.battery_lower, h.battery_upper,
          Registry.contains_assign_of_contains _ _ _ _ h.default_registered,
          Registry.contains_assign_of_contains _ _ _ _ h.active_registered,
          h.on_board_logged, h.logged_nonneg,
          Registry.contains_assign_of_not_contains _ _ _ _ (Ne.symm hg.1) h.empty_unregistered,
          h.reservoir_lower⟩
      exact hbase.of_frame [_] rfl rfl rfl rfl rfl rfl
        (by intro e he; simp at he; subst he; rfl)
    · push_neg at hg
      exact ⟨h.battery_lower, h.battery_upper,
        Registry.contains_assign_of_contains _ _ _ _ h.default_registered,
        Registry.contains_assign_of_contains _ _ _ _ h.active_registered,
        h.on_board_logged, h.logged_nonneg,
        Registry.contains_assign_of_not_contains _ _ _ _ (Ne.symm hg.1) h.empty_unregistered,
        h.reservoir_lower⟩

theorem WellFormed.activateProfile {s s1 : TSlimX2Pump} (h : WellFormed s) (c : Clock)
    (name : String) (b : Bool) (hr : s.activateProfile c name = some (b, s1)) :
    WellFormed s1 := by
  rcases activateProfile_cases s s1 c name b hr with ⟨-, rfl, -⟩ | ⟨-, -, hreg, evs, hevs, rfl⟩
  · exact h
  · have hmid : WellFormed { s with activeProfileName := name } :=
      ⟨h.battery_lower, h.battery_upper, h.default_registered, hreg, h.on_board_logged,
        h.logged_nonneg, h.empty_unregistered, h.reservoir_lower⟩
    exact hmid.of_frame evs rfl rfl rfl rfl rfl rfl hevs

theorem WellFormed.deleteProfile {s s1 : TSlimX2Pump} (h : WellFormed s) (c : Clock)
    (name : String) (b : Bool) (hr : s.deleteProfile c name = some (b, s1)) :
    WellFormed s1 := by
  rcases deleteProfile_cases s s1 c name b hr with
    ⟨-, rfl, -⟩ | ⟨-, hnd, -, -, evs, active, hevs, rfl, hact⟩
  · exact h
  · have hactive : (s.profiles.erase name).contains active = true := by
      rcases hact with ⟨hne, rfl⟩ | ⟨-, -, rfl⟩ | ⟨-, hno, -⟩
      · exact Registry.contains_erase_of_ne _ _ _ (Ne.symm hne) h.active_registered
      · exact Registry.contains_erase_of_ne _ _ _ (Ne.symm hnd) h.default_registered
      · rw [h.default_registered] at hno
        cases hno
    have hmid : WellFormed { s with activeProfileName := active
                                    profiles := s.profiles.erase name } :=
      ⟨h.battery_lower, h.battery_upper,
        Registry.contains_erase_of_ne _ _ _ (Ne.symm hnd) h.default_registered, hactive,
        h.on_board_logged, h.logged_nonneg,
        Registry.contains_erase_of_not_contains _ _ _ h.empty_unregistered, h.reservoir_lower⟩
    exact hmid.of_frame evs rfl rfl rfl rfl rfl rfl hevs

theorem WellFormed.deliverBolus {s : TSlimX2Pump} (h : WellFormed s) (c : Clock) (units : ℚ)
    (extended : Bool) (durationMinutes : Int) :
    WellFormed (s.deliverBolus c units extended durationMinutes).2 := by
  rcases deliverBolus_cases s units extended durationMinutes with hr | ⟨h1, h2, h3⟩
  · rw [deliverBolus_refused s c units extended durationMinutes hr]
    exact h
  · rw [deliverBolus_accepted s c units extended durationMinutes h1 h2 h3]
    push_neg at h2
    refine ⟨h.battery_lower, h.battery_upper, h.default_registered, h.active_registered, ?_, ?_,
      h.empty_unregistered, ?_⟩
    · show s.insulinOnBoard + units = loggedUnits (s.eventHistory ++ [_])
      rw [loggedUnits_append, h.on_board_logged]
      simp [loggedUnits, Event.activeUnits]
    · intro e he
      rcases List.mem_append.mp he with hm | hm
      · exact h.logged_nonneg e hm
      · simp only [List.mem_singleton] at hm
        subst hm
        simp only [Event.activeUnits, Bool.false_eq_true, if_false]
        exact le_of_lt h2.1
    · show 0 ≤ s.insulinLevel - units
      linarith [h2.2]

theorem WellFormed.cancelBolus {s : TSlimX2Pump} (h : WellFormed s) (c : Clock) :
    WellFormed (s.cancelBolus c).2 := by
  by_cases hs : s.currentState = .DELIVERING_BOLUS
  · cases hscan : cancelScan s.eventHistory.reverse with
    | none =>
      rw [cancelBolus_not_found s c hscan]
      exact h
    | some r =>
      obtain ⟨u, scanned⟩ := r
      rw [cancelBolus_found s c u scanned hs hscan]
      obtain ⟨hsum, hnonneg⟩ := cancelScan_logged _ _ _ hscan
      obtain ⟨hkeep, hu⟩ := hnonneg (fun x hx => h.logged_nonneg x (List.mem_reverse.mp hx))
      have hmid : WellFormed { s with insulinLevel := s.insulinLevel + u / 2
                                      insulinOnBoard := s.insulinOnBoard - u / 2
                                      eventHistory := scanned.reverse } := by
        refine ⟨h.battery_lower, h.battery_upper, h.default_registered, h.active_registered,
          ?_, ?_, h.empty_unregistered, ?_⟩
        · show s.insulinOnBoard - u / 2 = loggedUnits scanned.reverse
          rw [loggedUnits_reverse, hsum, loggedUnits_reverse, h.on_board_logged]
        · intro e he
          exact hkeep e (List.mem_reverse.mp he)
        · show 0 ≤ s.insulinLevel + u / 2
          linarith [h.reservoir_lower]
      exact hmid.of_frame [_] rfl rfl rfl rfl rfl rfl (by intro e he; simp at he; subst he; rfl)
  · rw [cancelBolus_idle s c hs]
    exact h

theorem WellFormed.startBasal {s : TSlimX2Pump} (h : WellFormed s) (c : Clock) :
    WellFormed (s.startBasal c).2 := by
  unfold TSlimX2Pump.startBasal
  split_ifs
  · exact h
  · exact h.of_frame [] rfl rfl rfl rfl rfl (List.append_nil _).symm (by simp)
  · simp only
    split
    · exact h.of_frame [_] rfl rfl rfl rfl rfl rfl (by intro e he; simp at he; subst he; rfl)
    · exact h.of_frame [] rfl rfl rfl rfl rfl (List.append_nil _).symm (by simp)

theorem WellFormed.stopBasal {s : TSlimX2Pump} (h : WellFormed s) (c : Clock) :
    WellFormed (s.stopBasal c).2 := by
  unfold TSlimX2Pump.stopBasal
  split_ifs
  · exact h
  · exact h.of_frame [_] rfl rfl rfl rfl rfl rfl (by intro e he; simp at he; subst he; rfl)

theorem WellFormed.resumeBasal {s : TSlimX2Pump} (h : WellFormed s) (c : Clock) :
    WellFormed (s.resumeBasal c).2 := by
  unfold TSlimX2Pump.resumeBasal
  split_ifs
  · exact h
  · exact h.of_frame [] rfl rfl rfl rfl rfl (List.append_nil _).symm (by simp)
  · simp only
    split
    · have hmid : WellFormed (TSlimX2Pump.logEvent { s with currentState := .DELIVERING_BASAL }
          (.resume c.now "User resumed insulin")) :=
        h.of_frame [_] rfl rfl rfl rfl rfl rfl (by intro e he; simp at he; subst he; rfl)
      exact hmid.of_frame [_] rfl rfl rfl rfl rfl rfl (by intro e he; simp at he; subst he; rfl)
    · exact h.of_frame [] rfl rfl rfl rfl rfl (List.append_nil _).symm (by simp)

theorem WellFormed.enableControlIQ {s : TSlimX2Pump} (h : WellFormed s) :
    WellFormed s.enableControlIQ.2 := by
  unfold TSlimX2Pump.enableControlIQ
  split_ifs
  · exact h
  · exact h
  · exact h.of_frame [] rfl rfl rfl rfl rfl (List.append_nil _).symm (by simp)

theorem WellFormed.disableControlIQ {s : TSlimX2Pump} (h : WellFormed s) :
    WellFormed s.disableControlIQ.2 :=
  h.of_frame [] rfl rfl rfl rfl rfl (List.append_nil _).symm (by simp)

theorem WellFormed.connectCGM {s : TSlimX2Pump} (h : WellFormed s) :
    WellFormed s.connectCGM.2 :=
  h.of_frame [] rfl rfl rfl rfl rfl (List.append_nil _).symm (by simp)

theorem WellFormed.disconnectCGM {s : TSlimX2Pump} (h : WellFormed s) :
    WellFormed s.disconnectCGM.2 :=
  h.of_frame [] rfl rfl rfl rfl rfl (List.append_nil _).symm (by simp)

theorem WellFormed.updateCGMData {s : TSlimX2Pump} (h : WellFormed s) (c : Clock)
    (glucoseValue : ℚ) : WellFormed (s.updateCGMData c glucoseValue) :=
  h.of_frame [_] rfl rfl rfl rfl rfl rfl (by intro e he; simp at he; subst he; rfl)

theorem WellFormed.clearError {s : TSlimX2Pump} (h : WellFormed s) :
    WellFormed s.clearError.2 :=
  h.of_frame [] rfl rfl rfl rfl rfl (List.append_nil _).symm (by simp)

/-- Every call keeps the state invariants. -/
theorem WellFormed.step {s s1 : TSlimX2Pump} (h : WellFormed s) (c : Clock) (op : Op)
    (b : Bool) (hr : InsulinPump.step s c op = some (b, s1)) : WellFormed s1 := by
  cases op with
  | deleteProfile name => exact h.deleteProfile c name b hr
  | activateProfile name => exact h.activateProfile c name b hr
  | powerOn =>
    simp only [InsulinPump.step, Option.some.injEq] at hr
    have := h.powerOn c
    rwa [hr] at this
  | powerOff =>
    simp only [InsulinPump.step, Option.some.injEq] at hr
    have := h.powerOff c
    rwa [hr] at this
  | sleep =>
    simp only [InsulinPump.step, Option.some.injEq] at hr
    have := h.sleep
    rwa [hr] at this
  | wake =>
    simp only [InsulinPump.step, Option.some.injEq] at hr
    have := h.wake
    rwa [hr] at this
  | chargeBattery amount =>
    simp only [InsulinPump.step, Option.some.injEq] at hr
    have := h.chargeBattery amount
    rwa [hr] at this
  | refillInsulin amount =>
    simp only [InsulinPump.step, Option.some.injEq] at hr
    have := h.refillInsulin amount
    rwa [hr] at this
  | createProfile name =>
    simp only [InsulinPump.step, Option.some.injEq] at hr
    have := h.createProfile name
    rwa [hr] at this
  | updateProfile name profile =>
    simp only [InsulinPump.step, Option.some.injEq] at hr
    have := h.updateProfile c name profile
    rwa [hr] at this
  | deliverBolus units extended durationMinutes =>
    simp only [InsulinPump.step, Option.some.injEq] at hr
    have := h.deliverBolus c units extended durationMinutes
    rwa [hr] at this
  | cancelBolus =>
    simp only [InsulinPump.step, Option.some.injEq] at hr
    have := h.cancelBolus c
    rwa [hr] at this
  | startBasal =>
    simp only [InsulinPump.step, Option.some.injEq] at hr
    have := h.startBasal c
    rwa [hr] at this
  | stopBasal =>
    simp only [InsulinPump.step, Option.some.injEq] at hr
    have := h.stopBasal c
    rwa [hr] at this
  | resumeBasal =>
    simp only [InsulinPump.step, Option.some.injEq] at hr
    have := h.resumeBasal c
    rwa [hr] at this
  | enableControlIQ =>
    simp only [InsulinPump.step, Option.some.injEq] at hr
    have := h.enableControlIQ
    rwa [hr] at this
  | disableControlIQ =>
    simp only [InsulinPump.step, Option.some.injEq] at hr
    have := h.disableControlIQ
    rwa [hr] at this
  | connectCGM =>
    simp only [InsulinPump.step, Option.some.injEq] at hr
    have := h.connectCGM
    rwa [hr] at this
  | disconnectCGM =>
    simp only [InsulinPump.step, Option.some.injEq] at hr
    have := h.disconnectCGM
    rwa [hr] at this
  | updateCGMData glucoseValue =>
    simp only [InsulinPump.step, Option.some.injEq, Prod.mk.injEq] at hr
    have := h.updateCGMData c glucoseValue
    rwa [hr.2] at this
  | clearError =>
    simp only [InsulinPump.step, Option.some.injEq] at hr
    have := h.clearError
    rwa [hr] at this

/-- Every reachable state satisfies the state invariants. -/
theorem Reachable.wellFormed {s : TSlimX2Pump} (h : Reachable s) : WellFormed s := by
  induction h with
  | init => exact WellFormed.init
  | step c op _ hr ih => exact ih.step c op _ hr

/-- In a reachable state every call has a result: no call dereferences a null pointer. -/
theorem Reachable.step_defined {s : TSlimX2Pump} (h : Reachable s) (c : Clock) (op : Op) :
    ∃ b s1, InsulinPump.step s c op = some (b, s1) := by
  cases op with
  | deleteProfile name =>
    obtain ⟨⟨b, s1⟩, hr⟩ := deleteProfile_defined s c name h.wellFormed.active_registered
    exact ⟨b, s1, hr⟩
  | activateProfile name =>
    obtain ⟨⟨b, s1⟩, hr⟩ := activateProfile_defined s c name h.wellFormed.active_registered
    exact ⟨b, s1, hr⟩
  | _ => exact ⟨_, _, rfl⟩

/-- A state that a sequence of calls leads to from a reachable state is reachable. -/
theorem Reachable.run {s s1 : TSlimX2Pump} (h : Reachable s) (ops : List (Clock × Op))
    (hr : InsulinPump.run s ops = some s1) : Reachable s1 := by
  induction ops generalizing s with
  | nil =>
    simp only [InsulinPump.run, Option.some.injEq] at hr
    exact hr ▸ h
  | cons x rest ih =>
    obtain ⟨c, op⟩ := x
    unfold InsulinPump.run at hr
    cases hs : InsulinPump.step s c op with
    | none => simp [hs] at hr
    | some r =>
      obtain ⟨b, s2⟩ := r
      simp only [hs] at hr
      exact ih (Reachable.step c op h hs) hr

/-! ## Sample states are reachable -/

theorem ready_reachable : Reachable ready :=
  Reachable.step (b := ((TSlimX2Pump.init.powerOn Clock.morning).2.refillInsulin 300).1)
    Clock.morning (.refillInsulin 300)
    (Reachable.step (b := (TSlimX2Pump.init.powerOn Clock.morning).1) Clock.morning .powerOn
      Reachable.init rfl) rfl

theorem extending_reachable : Reachable extending :=
  Reachable.step (b := (ready.deliverBolus Clock.morning 10 true 30).1) Clock.morning
    (.deliverBolus 10 true 30) ready_reachable rfl

/-- The calls that create and activate the profile Night lead to the state `night`. -/
theorem night_run : run TSlimX2Pump.init nightCalls = some night := by
  simp +decide [nightCalls, night, run, step, createProfile, activateProfile, TSlimX2Pump.init,
    logEvent, Clock.morning, Registry.assign, Registry.contains, Registry.find]

theorem night_reachable : Reachable night :=
  Reachable.init.run nightCalls night_run

/-! ## Invariants of the reachable states -/

theorem loggedUnits_nonneg (l : List Event) (h : ∀ e ∈ l, 0 ≤ e.activeUnits) :
    0 ≤ loggedUnits l := by
  induction l with
  | nil => simp [loggedUnits]
  | cons a rest ih =>
    rw [loggedUnits_cons]
    have h1 := h a (List.mem_cons_self _ _)
    have h2 := ih (fun e he => h e (List.mem_cons_of_mem _ he))
    linarith

/-- Exact embedding, every argument being a number and every sum exact: in every
reachable state the insulin on board is not negative; it is the sum over the logged
bolus events of their units, halved once for a cancelled one. (The argument NaN is
treated in the section on binary32 values.) -/
theorem reachable_insulinOnBoard_nonneg (s : TSlimX2Pump) (h : Reachable s) :
    0 ≤ s.insulinOnBoard ∧ s.insulinOnBoard = loggedUnits s.eventHistory := by
  have hw := h.wellFormed
  refine ⟨?_, hw.on_board_logged⟩
  rw [hw.on_board_logged]
  exact loggedUnits_nonneg _ hw.logged_nonneg

/-- Example: the state in which an extended bolus is being delivered. -/
theorem reachable_insulinOnBoard_nonneg_witness :
    Reachable extending ∧ 0 ≤ extending.insulinOnBoard ∧
      extending.insulinOnBoard = loggedUnits extending.eventHistory :=
  ⟨extending_reachable, reachable_insulinOnBoard_nonneg extending extending_reachable⟩

/-- Exact embedding, every argument being a number: in every reachable state, hence
after every step of every sequence of calls from the constructed state, the battery
level is within 0 and 100; in particular a further `chargeBattery` with any amount that
is a number leaves it within these bounds. (The argument NaN is treated in the section on binary32
values.) -/
theorem reachable_battery_bounds (s : TSlimX2Pump) (h : Reachable s) :
    (0 ≤ s.batteryLevel ∧ s.batteryLevel ≤ 100) ∧
      ∀ amount : ℚ, 0 ≤ (s.chargeBattery amount).2.batteryLevel ∧
        (s.chargeBattery amount).2.batteryLevel ≤ 100 := by
  have hw := h.wellFormed
  refine ⟨⟨hw.battery_lower, hw.battery_upper⟩, fun amount => ?_⟩
  have hc := hw.chargeBattery amount
  exact ⟨hc.battery_lower, hc.battery_upper⟩

/-- Example: the ready controller. -/
theorem reachable_battery_bounds_witness :
    Reachable ready ∧ (0 ≤ ready.batteryLevel ∧ ready.batteryLevel ≤ 100) ∧
      ∀ amount : ℚ, 0 ≤ (ready.chargeBattery amount).2.batteryLevel ∧
        (ready.chargeBattery amount).2.batteryLevel ≤ 100 :=
  ⟨ready_reachable, reachable_battery_bounds ready ready_reachable⟩

/-- C8: in every reachable state the registry contains the name Default and the active
profile name is a key of the registry. -/
theorem reachable_registry (s : TSlimX2Pump) (h : Reachable s) :
    s.profiles.contains "Default" = true ∧ s.profiles.contains s.activeProfileName = true :=
  ⟨h.wellFormed.default_registered, h.wellFormed.active_registered⟩

/-- C5, failing sequence: after power-on, a refill to 300 units, an extended bolus of 100
units, a second refill to 300 units and the cancellation of the bolus, the reservoir
holds 350 units, above the capacity of 300 that `refillInsulin` enforces. -/
theorem overfill_exceeds_capacity :
    ∃ s, run TSlimX2Pump.init overfill = some s ∧ Reachable s ∧ s.insulinLevel = 350 := by
  have hrun : run TSlimX2Pump.init overfill =
      some { TSlimX2Pump.init with
        currentState := .DELIVERING_BASAL
        insulinLevel := 350
        insulinOnBoard := 50
        lastBolusTime := 1000
        lastBolusAmount := 100
        eventHistory := [.resume 1000 "Power on", .bolus 1000 .EXTENDED 100 10 true,
          .suspend 1000 "Bolus cancelled"] } := by
    simp +decide [overfill, run, step, powerOn, refillInsulin, TSlimX2Pump.init, logEvent,
      Clock.morning, deliverBolus, cancelBolus, cancelScan, Event.mkBolus,
      Event.isUncancelledBolus, Event.getUnits, Event.setCancelled]
    norm_num
  exact ⟨_, hrun, Reachable.init.run overfill hrun, rfl⟩

/-- Witness of C8: the state in which the profile Night is active. -/
theorem reachable_registry_witness :
    Reachable night ∧ night.profiles.contains "Default" = true ∧
      night.profiles.contains night.activeProfileName = true :=
  ⟨night_reachable, reachable_registry night night_reachable⟩

/-- In every reachable state the reservoir is not negative. -/
theorem reachable_reservoir_nonneg (s : TSlimX2Pump) (h : Reachable s) : 0 ≤ s.insulinLevel :=
  h.wellFormed.reservoir_lower

/-! ## deleteProfile -/

/-- C9: `deleteProfile` of the name Default fails in every state and changes nothing; so
does `deleteProfile` of a name that is not registered; and in every reachable state whose
active profile is not Default, deleting the active profile succeeds, removes its name
from the registry and leaves Default as the active profile name. -/
theorem deleteProfile_spec (s : TSlimX2Pump) (c : Clock) :
    s.deleteProfile c "Default" = some (false, s) ∧
      (∀ name, s.profiles.contains name = false → s.deleteProfile c name = some (false, s)) ∧
      (Reachable s → s.activeProfileName ≠ "Default" →
        ∃ s1, s.deleteProfile c s.activeProfileName = some (true, s1) ∧
          s1.profiles = s.profiles.erase s.activeProfileName ∧
          s1.profiles.contains s.activeProfileName = false ∧
          s1.getActiveProfileName = "Default") := by
  refine ⟨?_, ?_, ?_⟩
  · unfold deleteProfile
    rw [if_pos (Or.inl rfl)]
  · intro name hname
    unfold deleteProfile
    rw [if_pos (Or.inr (Or.inr hname))]
  · intro hreach hne
    have hw := hreach.wellFormed
    obtain ⟨⟨b, s1⟩, hr⟩ := deleteProfile_defined s c s.activeProfileName hw.active_registered
    rcases deleteProfile_cases s s1 c s.activeProfileName b hr with
      ⟨-, -, hg⟩ | ⟨rfl, -, -, -, evs, active, -, rfl, hact⟩
    · rcases hg with hg | hg | hg
      · exact absurd hg hne
      · have := hw.active_registered
        rw [hg, hw.empty_unregistered] at this
        cases this
      · rw [hw.active_registered] at hg
        cases hg
    · refine ⟨_, hr, rfl, Registry.contains_erase_self _ _, ?_⟩
      rcases hact with ⟨hn, -⟩ | ⟨-, -, rfl⟩ | ⟨-, hno, -⟩
      · exact absurd rfl hn
      · rfl
      · rw [hw.default_registered] at hno
        cases hno

/-- Witness of C9: with the profile Night active, deleting Night succeeds and leaves
Default active. -/
theorem deleteProfile_spec_witness :
    Reachable night ∧ night.activeProfileName ≠ "Default" ∧
      ∃ s1, night.deleteProfile Clock.morning night.activeProfileName = some (true, s1) ∧
        s1.profiles = night.profiles.erase night.activeProfileName ∧
        s1.profiles.contains night.activeProfileName = false ∧
        s1.getActiveProfileName = "Default" :=
  ⟨night_reachable, by decide,
    (deleteProfile_spec night Clock.morning).2.2 night_reachable (by decide)⟩

/-- Example: an extended bolus of 10 units over 30 minutes on the ready controller meets
all guards and succeeds. -/
theorem deliverBolus_succeeds_iff_witness :
    (ready.deliverBolus Clock.morning 10 true 30).1 = true :=
  (deliverBolus_succeeds_iff ready Clock.morning 10 true 30).1.mpr
    (by rw [ready_eq]; simp +decide [TSlimX2Pump.init])

theorem dry_eq :
    dry = { TSlimX2Pump.init with
            currentState := .ON
            currentError := .LOW_INSULIN
            errorMessage := "Cannot start basal: No insulin"
            eventHistory := [.resume 1000 "Power on"] } := by
  simp +decide [dry, powerOn, startBasal, TSlimX2Pump.init, logEvent, Clock.morning]

theorem dry_reachable : Reachable dry :=
  Reachable.step (b := ((TSlimX2Pump.init.powerOn Clock.morning).2.startBasal Clock.morning).1)
    Clock.morning .startBasal
    (Reachable.step (b := (TSlimX2Pump.init.powerOn Clock.morning).1) Clock.morning .powerOn
      Reachable.init rfl) rfl

theorem docked_run : run TSlimX2Pump.init dockCalls = some docked := by
  simp +decide [dockCalls, docked, run, step, powerOn, powerOff, connectCGM, TSlimX2Pump.init,
    logEvent, Clock.morning]

theorem docked_reachable : Reachable docked :=
  Reachable.init.run dockCalls docked_run

/-! ## chargeBattery and refillInsulin -/

/-- The clamp of the code, `if x > cap then cap else x`, is the minimum. -/
theorem clamp_eq_min (x cap : ℚ) : (if x > cap then cap else x) = min x cap := by
  by_cases h : x > cap
  · rw [if_pos h, min_eq_right (le_of_lt h)]
  · rw [if_neg h, min_eq_left (not_lt.mp h)]

theorem chargeBattery_accepted (s : TSlimX2Pump) (amount : ℚ) (h : 0 < amount) :
    s.chargeBattery amount =
      (true,
        { s with
          batteryLevel := min (s.batteryLevel + amount) 100
          currentError :=
            if s.currentError = .LOW_BATTERY ∧ min (s.batteryLevel + amount) 100 > 15 then .NONE
            else s.currentError
          errorMessage :=
            if s.currentError = .LOW_BATTERY ∧ min (s.batteryLevel + amount) 100 > 15 then ""
            else s.errorMessage }) := by
  unfold chargeBattery
  rw [if_neg (not_le.mpr h)]
  simp only [clamp_eq_min]

/-- C11: for every amount above 0, `chargeBattery` sets the battery level to the minimum
of the old level plus the amount and 100; afterwards the error is NONE if it was
LOW_BATTERY and the new level exceeds 15, and is otherwise unchanged. -/
theorem chargeBattery_effect (s : TSlimX2Pump) (amount : ℚ) (h : 0 < amount) :
    (s.chargeBattery amount).1 = true ∧
      (s.chargeBattery amount).2.batteryLevel = min (s.batteryLevel + amount) 100 ∧
      (s.chargeBattery amount).2.currentError =
        (if s.currentError = ErrorType.LOW_BATTERY ∧
            (s.chargeBattery amount).2.batteryLevel > 15 then ErrorType.NONE
          else s.currentError) := by
  rw [chargeBattery_accepted s amount h]
  exact ⟨rfl, rfl, rfl⟩

/-- Witness of C11: charging the ready controller by 20. -/
theorem chargeBattery_effect_witness :
    (0 : ℚ) < 20 ∧ (ready.chargeBattery 20).1 = true ∧
      (ready.chargeBattery 20).2.batteryLevel = min (ready.batteryLevel + 20) 100 :=
  ⟨by norm_num, (chargeBattery_effect ready 20 (by norm_num)).1,
    (chargeBattery_effect ready 20 (by norm_num)).2.1⟩

theorem activateProfile_refused (s : TSlimX2Pump) (c : Clock) (name : String)
    (h : name = "" ∨ s.profiles.contains name = false) :
    s.activateProfile c name = some (false, s) := by
  unfold activateProfile
  rw [if_pos h]

/-- The accepted branch of `activateProfile`: the name becomes active, a profile change
event is logged and, while basal insulin is delivered and the two resolved rates differ,
a basal change event after it. -/
theorem activateProfile_accepted (s : TSlimX2Pump) (c : Clock) (name : String)
    (oldProfile newProfile : Profile)
    (hne : name ≠ "") (hold : s.profiles.find s.activeProfileName = some oldProfile)
    (hnew : s.profiles.find name = some newProfile) :
    s.activateProfile c name =
      some (true,
        { s with
          activeProfileName := name
          eventHistory := s.eventHistory ++
            [Event.profileChange c.now s.activeProfileName name] ++
            (if s.currentState = .DELIVERING_BASAL ∧
                oldProfile.getBasalRate c.hour c.minute ≠
                  newProfile.getBasalRate c.hour c.minute then
              [Event.basalChange c.now (oldProfile.getBasalRate c.hour c.minute)
                (newProfile.getBasalRate c.hour c.minute) "Profile change"]
            else []) }) := by
  have hreg : s.profiles.contains name = true := by
    unfold Registry.contains
    rw [hnew]
    rfl
  have hg : ¬(name = "" ∨ s.profiles.contains name = false) := by
    rintro (h | h)
    · exact hne h
    · rw [hreg] at h
      cases h
  unfold activateProfile
  rw [if_neg hg]
  by_cases hst : s.currentState = .DELIVERING_BASAL
  · simp only [logEvent, hst, if_true, getProfile, hold, hnew, true_and]
    by_cases hr : oldProfile.getBasalRate c.hour c.minute ≠
        newProfile.getBasalRate c.hour c.minute
    · rw [if_pos hr, if_pos hr]
    · rw [if_neg hr, if_neg hr, List.append_nil]
  · simp only [logEvent, hst, if_false, false_and, List.append_nil]

/-- A registered name is not empty when the registry holds no empty name. -/
theorem Registry.ne_empty_of_contains (r : Registry) (name : String)
    (hempty : r.contains "" = false) (hreg : r.contains name = true) : name ≠ "" := by
  intro h
  rw [h, hempty] at hreg
  cases hreg

/-- C13: in every state whose active profile name is a key of the registry (a registry of
non-empty names), whatever the operating state, `activateProfile` of the active name
succeeds and appends exactly one event, a profile change from that name to itself; no
basal change event is appended and every other field, the active name included, is
unchanged. -/
theorem activateProfile_active (s : TSlimX2Pump) (c : Clock)
    (hreg : s.profiles.contains s.activeProfileName = true)
    (hempty : s.profiles.contains "" = false) :
    s.activateProfile c s.activeProfileName =
      some (true,
        { s with
          eventHistory := s.eventHistory ++
            [Event.profileChange c.now s.activeProfileName s.activeProfileName] }) := by
  have hne := Registry.ne_empty_of_contains _ _ hempty hreg
  obtain ⟨p, hp⟩ := Registry.contains_true_find _ _ hreg
  rw [activateProfile_accepted s c s.activeProfileName p p hne hp hp]
  have hno : ¬(s.currentState = .DELIVERING_BASAL ∧
      p.getBasalRate c.hour c.minute ≠ p.getBasalRate c.hour c.minute) :=
    fun h => h.2 rfl
  rw [if_neg hno, List.append_nil]

/-- Witness of C13: re-activating the active profile Night. -/
theorem activateProfile_active_witness :
    night.profiles.contains night.activeProfileName = true ∧
      night.profiles.contains "" = false ∧
      night.activateProfile Clock.morning night.activeProfileName =
        some (true,
          { night with
            eventHistory := night.eventHistory ++
              [Event.profileChange Clock.morning.now night.activeProfileName
                night.activeProfileName] }) :=
  ⟨by decide, by decide, activateProfile_active night Clock.morning (by decide) (by decide)⟩

/-- C14: `activateProfile` of a name that is not registered fails and changes nothing.
For a registered name, in a state that meets the registry invariants (no empty name is
registered, the active profile is registered), it succeeds, makes the name active,
appends a profile change event from the previous active name to the name, and after it a
basal change event from the old to the new rate exactly when the state is
DELIVERING_BASAL and the basal rates of the previous and the new profile at the current
time differ. The operating state is never changed. -/
theorem activateProfile_spec (s : TSlimX2Pump) (c : Clock) (name : String) :
    (s.profiles.contains name = false → s.activateProfile c name = some (false, s)) ∧
      (s.profiles.contains name = true → s.profiles.contains "" = false →
        s.profiles.contains s.activeProfileName = true →
        ∃ oldProfile newProfile,
          s.getProfile s.activeProfileName = some oldProfile ∧
          s.getProfile name = some newProfile ∧
          s.activateProfile c name =
            some (true,
              { s with
                activeProfileName := name
                eventHistory := s.eventHistory ++
                  [Event.profileChange c.now s.activeProfileName name] ++
                  (if s.currentState = State.DELIVERING_BASAL ∧
                      oldProfile.getBasalRate c.hour c.minute ≠
                        newProfile.getBasalRate c.hour c.minute then
                    [Event.basalChange c.now (oldProfile.getBasalRate c.hour c.minute)
                      (newProfile.getBasalRate c.hour c.minute) "Profile change"]
                  else []) })) ∧
      (∀ b s1, s.activateProfile c name = some (b, s1) → s1.currentState = s.currentState) := by
  refine ⟨fun h => activateProfile_refused s c name (Or.inr h), ?_, ?_⟩
  · intro hreg hempty hact
    have hne := Registry.ne_empty_of_contains _ _ hempty hreg
    obtain ⟨po, hpo⟩ := Registry.contains_true_find _ _ hact
    obtain ⟨pn, hpn⟩ := Registry.contains_true_find _ _ hreg
    exact ⟨po, pn, hpo, hpn, activateProfile_accepted s c name po pn hne hpo hpn⟩
  · intro b s1 hr
    rcases activateProfile_cases s s1 c name b hr with ⟨-, rfl, -⟩ | ⟨-, -, -, evs, -, rfl⟩
    · rfl
    · rfl

/-- Witness of C14: with Night active, activating Default succeeds and logs the change
from Night to Default. -/
theorem activateProfile_spec_witness :
    ∃ oldProfile newProfile,
      night.getProfile night.activeProfileName = some oldProfile ∧
      night.getProfile "Default" = some newProfile ∧
      night.activateProfile Clock.morning "Default" =
        some (true,
          { night with
            activeProfileName := "Default"
            eventHistory := night.eventHistory ++
              [Event.profileChange Clock.morning.now night.activeProfileName "Default"] ++
              (if night.currentState = State.DELIVERING_BASAL ∧
                  oldProfile.getBasalRate Clock.morning.hour Clock.morning.minute ≠
                    newProfile.getBasalRate Clock.morning.hour Clock.morning.minute then
                [Event.basalChange Clock.morning.now
                  (oldProfile.getBasalRate Clock.morning.hour Clock.morning.minute)
                  (newProfile.getBasalRate Clock.morning.hour Clock.morning.minute)
                  "Profile change"]
              else []) }) :=
  (activateProfile_spec night Clock.morning "Default").2.1 (by decide) (by decide) (by decide)

/-! ## Basal delivery -/

theorem startBasal_refused (s : TSlimX2Pump) (c : Clock)
    (h : s.currentState = .OFF ∨ s.currentState = .SLEEP ∨ s.currentState = .ERROR) :
    s.startBasal c = (false, s) := by
  unfold startBasal
  rw [if_pos h]

theorem startBasal_empty (s : TSlimX2Pump) (c : Clock)
    (h1 : ¬(s.currentState = .OFF ∨ s.currentState = .SLEEP ∨ s.currentState = .ERROR))
    (h2 : s.insulinLevel ≤ 0) :
    s.startBasal c =
      (false, { s with currentError := .LOW_INSULIN
                       errorMessage := "Cannot start basal: No insulin" }) := by
  unfold startBasal
  rw [if_neg h1, if_pos h2]

theorem startBasal_started (s : TSlimX2Pump) (c : Clock)
    (h1 : ¬(s.currentState = .OFF ∨ s.currentState = .SLEEP ∨ s.currentState = .ERROR))
    (h2 : ¬s.insulinLevel ≤ 0) :
    s.startBasal c =
      (true,
        match s.getActiveProfile with
        | some profile =>
          { s with
            currentState := .DELIVERING_BASAL
            eventHistory := s.eventHistory ++
              [Event.basalChange c.now 0 (profile.getBasalRate c.hour c.minute)
                "Basal started"] }
        | none => { s with currentState := .DELIVERING_BASAL }) := by
  unfold startBasal
  rw [if_neg h1, if_neg h2]
  have hp : getActiveProfile { s with currentState := .DELIVERING_BASAL } =
      s.getActiveProfile := rfl
  simp only [hp]
  cases s.getActiveProfile <;> rfl

theorem ready_active_profile : ready.getActiveProfile = some defaultProfile := by
  rw [ready_eq]
  rfl

theorem resumeBasal_refused (s : TSlimX2Pump) (c : Clock) (h : s.currentState ≠ .SUSPENDED) :
    s.resumeBasal c = (false, s) := by
  unfold resumeBasal
  rw [if_pos h]

theorem resumeBasal_empty (s : TSlimX2Pump) (c : Clock) (h1 : s.currentState = .SUSPENDED)
    (h2 : s.insulinLevel ≤ 0) :
    s.resumeBasal c =
      (false, { s with currentError := .LOW_INSULIN
                       errorMessage := "Cannot resume basal: No insulin" }) := by
  unfold resumeBasal
  rw [if_neg (not_not.mpr h1), if_pos h2]

theorem resumeBasal_resumed (s : TSlimX2Pump) (c : Clock) (h1 : s.currentState = .SUSPENDED)
    (h2 : ¬s.insulinLevel ≤ 0) :
    s.resumeBasal c =
      (true,
        match s.getActiveProfile with
        | some profile =>
          { s with
            currentState := .DELIVERING_BASAL
            eventHistory := s.eventHistory ++
              [Event.resume c.now "User resumed insulin",
                Event.basalChange c.now 0 (profile.getBasalRate c.hour c.minute)
                  "Basal resumed"] }
        | none => { s with currentState := .DELIVERING_BASAL }) := by
  unfold resumeBasal
  rw [if_neg (not_not.mpr h1), if_neg h2]
  have hp : getActiveProfile { s with currentState := .DELIVERING_BASAL } =
      s.getActiveProfile := rfl
  simp only [hp]
  cases s.getActiveProfile with
  | none => rfl
  | some p => simp [logEvent]

/-- C17: `powerOff` succeeds exactly in a state other than OFF and then yields OFF;
`sleep` succeeds exactly in ON or DELIVERING_BASAL and then yields SLEEP; `wake` succeeds
exactly in SLEEP and then yields ON; `stopBasal` succeeds exactly in DELIVERING_BASAL or
DELIVERING_BOLUS and then yields SUSPENDED. A failing call leaves the whole state
unchanged. A suspend event is appended by every successful `stopBasal` and by a
`powerOff` that leaves DELIVERING_BOLUS or DELIVERING_BASAL, and by no other of these
calls; nothing else changes. -/
theorem transitions_spec (s : TSlimX2Pump) (c : Clock) :
    (((s.powerOff c).1 = true ↔ s.currentState ≠ State.OFF) ∧
        ((s.powerOff c).1 = true →
          (s.powerOff c).2 =
            { s with
              currentState := State.OFF
              eventHistory :=
                if s.currentState = State.DELIVERING_BOLUS ∨
                    s.currentState = State.DELIVERING_BASAL then
                  s.eventHistory ++ [Event.suspend c.now "Power off"]
                else s.eventHistory }) ∧
        ((s.powerOff c).1 = false → (s.powerOff c).2 = s)) ∧
      ((s.sleep.1 = true ↔
          (s.currentState = State.ON ∨ s.currentState = State.DELIVERING_BASAL)) ∧
        (s.sleep.1 = true → s.sleep.2 = { s with currentState := State.SLEEP }) ∧
        (s.sleep.1 = false → s.sleep.2 = s)) ∧
      ((s.wake.1 = true ↔ s.currentState = State.SLEEP) ∧
        (s.wake.1 = true → s.wake.2 = { s with currentState := State.ON }) ∧
        (s.wake.1 = false → s.wake.2 = s)) ∧
      (((s.stopBasal c).1 = true ↔
          (s.currentState = State.DELIVERING_BASAL ∨
            s.currentState = State.DELIVERING_BOLUS)) ∧
        ((s.stopBasal c).1 = true →
          (s.stopBasal c).2 =
            { s with
              currentState := State.SUSPENDED
              eventHistory := s.eventHistory ++ [Event.suspend c.now "User stopped insulin"] }) ∧
        ((s.stopBasal c).1 = false → (s.stopBasal c).2 = s)) := by
  refine ⟨?_, ?_, ?_, ?_⟩
  · unfold powerOff
    by_cases h : s.currentState ≠ .OFF
    · rw [if_pos h]
      refine ⟨Iff.intro (fun _ => h) (fun _ => rfl), fun _ => ?_, ?_⟩
      · by_cases hd : s.currentState = .DELIVERING_BOLUS ∨ s.currentState = .DELIVERING_BASAL
        · simp only [if_pos hd, logEvent]
        · simp only [if_neg hd]
      · intro hf
        cases hf
    · rw [if_neg h]
      refine ⟨Iff.intro ?_ (fun h2 => absurd h2 h), ?_, fun _ => rfl⟩
      · intro hf
        cases hf
      · intro hf
        cases hf
  · unfold sleep
    by_cases h : s.currentState = .ON ∨ s.currentState = .DELIVERING_BASAL
    · rw [if_pos h]
      refine ⟨Iff.intro (fun _ => h) (fun _ => rfl), fun _ => rfl, ?_⟩
      intro hf
      cases hf
    · rw [if_neg h]
      refine ⟨Iff.intro ?_ (fun h2 => absurd h2 h), ?_, fun _ => rfl⟩
      · intro hf
        cases hf
      · intro hf
        cases hf
  · unfold wake
    by_cases h : s.currentState = .SLEEP
    · rw [if_pos h]
      refine ⟨Iff.intro (fun _ => h) (fun _ => rfl), fun _ => rfl, ?_⟩
      intro hf
      cases hf
    · rw [if_neg h]
      refine ⟨Iff.intro ?_ (fun h2 => absurd h2 h), ?_, fun _ => rfl⟩
      · intro hf
        cases hf
      · intro hf
        cases hf
  · unfold stopBasal
    by_cases h : s.currentState ≠ .DELIVERING_BASAL ∧ s.currentState ≠ .DELIVERING_BOLUS
    · rw [if_pos h]
      refine ⟨Iff.intro ?_ ?_, ?_, fun _ => rfl⟩
      · intro hf
        cases hf
      · rintro (h2 | h2)
        · exact absurd h2 h.1
        · exact absurd h2 h.2
      · intro hf
        cases hf
    · rw [if_neg h]
      refine ⟨Iff.intro (fun _ => ?_) (fun _ => rfl), fun _ => rfl, ?_⟩
      · by_contra hc
        push_neg at hc
        exact h hc
      · intro hf
        cases hf

/-- Witness of C17: stopping the delivery of the extended bolus succeeds and leaves the
state SUSPENDED with a suspend event appended. -/
theorem transitions_spec_witness :
    (extending.stopBasal Clock.morning).1 = true ∧
      (extending.stopBasal Clock.morning).2 =
        { extending with
          currentState := State.SUSPENDED
          eventHistory := extending.eventHistory ++
            [Event.suspend Clock.morning.now "User stopped insulin"] } :=
  have h : (extending.stopBasal Clock.morning).1 = true :=
    (transitions_spec extending Clock.morning).2.2.2.1.mpr
      (Or.inr (by rw [extending_eq]))
  ⟨h, (transitions_spec extending Clock.morning).2.2.2.2.1 h⟩

/-! ## Control-IQ -/

/-- C18, counterexample: in the state reached by power-on, connecting the monitor and
power-off, the monitor is connected but `enableControlIQ` fails, as the state is OFF. -/
theorem enableControlIQ_off_counterexample :
    run TSlimX2Pump.init dockCalls = some docked ∧ docked.cgmConnected = true ∧
      docked.enableControlIQ.1 = false :=
  ⟨docked_run, rfl, rfl⟩

theorem enableControlIQ_refused (s : TSlimX2Pump)
    (h : (s.currentState = .OFF ∨ s.currentState = .ERROR) ∨ s.cgmConnected = false) :
    s.enableControlIQ = (false, s) := by
  unfold enableControlIQ
  by_cases h1 : s.currentState = .OFF ∨ s.currentState = .ERROR
  · rw [if_pos h1]
  · rw [if_neg h1]
    rcases h with h | h
    · exact absurd h h1
    · rw [if_pos h]

theorem enableControlIQ_enabled (s : TSlimX2Pump)
    (h1 : ¬(s.currentState = .OFF ∨ s.currentState = .ERROR)) (h2 : s.cgmConnected = true) :
    s.enableControlIQ = (true, { s with controlIQEnabled := true }) := by
  unfold enableControlIQ
  have h3 : ¬s.cgmConnected = false := by
    rw [h2]
    decide
  rw [if_neg h1, if_neg h3]

/-- C18, amended: `enableControlIQ` succeeds, setting the flag and nothing else, exactly
when the state is neither OFF nor ERROR and the monitor is connected; otherwise it fails
and leaves the whole state, the flag included, unchanged. `disableControlIQ` succeeds in
every state, clears the flag and changes nothing else. -/
theorem controlIQ_spec (s : TSlimX2Pump) :
    (s.enableControlIQ.1 = true ↔
        (s.currentState ≠ State.OFF ∧ s.currentState ≠ State.ERROR) ∧ s.cgmConnected = true) ∧
      (s.enableControlIQ.1 = true → s.enableControlIQ.2 = { s with controlIQEnabled := true }) ∧
      (s.enableControlIQ.1 = false → s.enableControlIQ.2 = s) ∧
      s.disableControlIQ = (true, { s with controlIQEnabled := false }) := by
  by_cases h1 : s.currentState = .OFF ∨ s.currentState = .ERROR
  · rw [enableControlIQ_refused s (Or.inl h1)]
    refine ⟨Iff.intro ?_ ?_, ?_, fun _ => rfl, rfl⟩
    · intro hf
      cases hf
    · rintro ⟨⟨a, b⟩, -⟩
      rcases h1 with h | h
      · exact absurd h a
      · exact absurd h b
    · intro hf
      cases hf
  · by_cases h2 : s.cgmConnected = true
    · rw [enableControlIQ_enabled s h1 h2]
      refine ⟨Iff.intro (fun _ => ?_) (fun _ => rfl), fun _ => rfl, ?_, rfl⟩
      · push_neg at h1
        exact ⟨h1, h2⟩
      · intro hf
        cases hf
    · rw [enableControlIQ_refused s (Or.inr (Bool.eq_false_iff.mpr h2))]
      refine ⟨Iff.intro ?_ (fun hc => absurd hc.2 h2), ?_, fun _ => rfl, rfl⟩
      · intro hf
        cases hf
      · intro hf
        cases hf

/-- Witness of C18 as amended: disabling Control-IQ on the ready controller succeeds. -/
theorem controlIQ_spec_witness :
    ready.disableControlIQ = (true, { ready with controlIQEnabled := false }) :=
  (controlIQ_spec ready).2.2.2

/-! ## Errors persist -/

/-- The state that a call of the non-optional kind leaves behind, read off its result. -/
theorem snd_of_eq {r : Bool × TSlimX2Pump} {b : Bool} {s1 : TSlimX2Pump} (h : r = (b, s1)) :
    s1 = r.2 := by
  rw [h]

/-- No call outside the corrective ones turns a set error into NONE. -/
theorem step_error_persists (s s1 : TSlimX2Pump) (c : Clock) (op : Op) (b : Bool)
    (hop : op.isCorrective = false) (herr : s.currentError ≠ ErrorType.NONE)
    (hr : step s c op = some (b, s1)) : s1.currentError ≠ ErrorType.NONE := by
  cases op with
  | chargeBattery amount => cases hop
  | refillInsulin amount => cases hop
  | clearError => cases hop
  | powerOn =>
    simp only [step, Option.some.injEq] at hr
    rw [snd_of_eq hr]
    unfold powerOn
    split_ifs
    · show ErrorType.LOW_BATTERY ≠ ErrorType.NONE
      decide
    · exact herr
    · exact herr
  | powerOff =>
    simp only [step, Option.some.injEq] at hr
    rw [snd_of_eq hr]
    unfold powerOff
    split_ifs <;> exact herr
  | sleep =>
    simp only [step, Option.some.injEq] at hr
    rw [snd_of_eq hr]
    unfold sleep
    split_ifs <;> exact herr
  | wake =>
    simp only [step, Option.some.injEq] at hr
    rw [snd_of_eq hr]
    unfold wake
    split_ifs <;> exact herr
  | createProfile name =>
    simp only [step, Option.some.injEq] at hr
    rw [snd_of_eq hr]
    unfold createProfile
    split_ifs <;> exact herr
  | updateProfile name profile =>
    simp only [step, Option.some.injEq] at hr
    rw [snd_of_eq hr]
    unfold updateProfile
    cases profile with
    | none => exact herr
    | some p =>
      simp only
      split_ifs <;> exact herr
  | deleteProfile name =>
    rcases deleteProfile_cases s s1 c name b hr with
      ⟨-, rfl, -⟩ | ⟨-, -, -, -, evs, active, -, rfl, -⟩
    · exact herr
    · exact herr
  | activateProfile name =>
    rcases activateProfile_cases s s1 c name b hr with ⟨-, rfl, -⟩ | ⟨-, -, -, evs, -, rfl⟩
    · exact herr
    · exact herr
  | deliverBolus units extended durationMinutes =>
    simp only [step, Option.some.injEq] at hr
    rw [snd_of_eq hr]
    rcases deliverBolus_cases s units extended durationMinutes with hg | ⟨h1, h2, h3⟩
    · rw [deliverBolus_refused s c units extended durationMinutes hg]
      exact herr
    · rw [deliverBolus_accepted s c units extended durationMinutes h1 h2 h3]
      show (if s.insulinLevel - units < 50 ∧ s.currentError = .NONE then ErrorType.LOW_INSULIN
        else s.currentError) ≠ .NONE
      rw [if_neg (fun h => herr h.2)]
      exact herr
  | cancelBolus =>
    simp only [step, Option.some.injEq] at hr
    rw [snd_of_eq hr]
    by_cases hs : s.currentState = .DELIVERING_BOLUS
    · cases hscan : cancelScan s.eventHistory.reverse with
      | none =>
        rw [cancelBolus_not_found s c hscan]
        exact herr
      | some r =>
        rw [cancelBolus_found s c r.1 r.2 hs hscan]
        exact herr
    · rw [cancelBolus_idle s c hs]
      exact herr
  | startBasal =>
    simp only [step, Option.some.injEq] at hr
    rw [snd_of_eq hr]
    by_cases h1 : s.currentState = .OFF ∨ s.currentState = .SLEEP ∨ s.currentState = .ERROR
    · rw [startBasal_refused s c h1]
      exact herr
    · by_cases h2 : s.insulinLevel ≤ 0
      · rw [startBasal_empty s c h1 h2]
        show ErrorType.LOW_INSULIN ≠ ErrorType.NONE
        decide
      · rw [startBasal_started s c h1 h2]
        cases s.getActiveProfile <;> exact herr
  | stopBasal =>
    simp only [step, Option.some.injEq] at hr
    rw [snd_of_eq hr]
    unfold stopBasal
    split_ifs <;> exact herr
  | resumeBasal =>
    simp only [step, Option.some.injEq] at hr
    rw [snd_of_eq hr]
    by_cases h1 : s.currentState = .SUSPENDED
    · by_cases h2 : s.insulinLevel ≤ 0
      · rw [resumeBasal_empty s c h1 h2]
        show ErrorType.LOW_INSULIN ≠ ErrorType.NONE
        decide
      · rw [resumeBasal_resumed s c h1 h2]
        cases s.getActiveProfile <;> exact herr
    · rw [resumeBasal_refused s c h1]
      exact herr
  | enableControlIQ =>
    simp only [step, Option.some.injEq] at hr
    rw [snd_of_eq hr]
    unfold enableControlIQ
    split_ifs <;> exact herr
  | disableControlIQ =>
    simp only [step, Option.some.injEq] at hr
    rw [snd_of_eq hr]
    exact herr
  | connectCGM =>
    simp only [step, Option.some.injEq] at hr
    rw [snd_of_eq hr]
    exact herr
  | disconnectCGM =>
    simp only [step, Option.some.injEq] at hr
    rw [snd_of_eq hr]
    exact herr
  | updateCGMData glucoseValue =>
    simp only [step, Option.some.injEq] at hr
    rw [snd_of_eq hr]
    exact herr

/-- With a registered active profile every call has a result. -/
theorem step_defined_of_active (s : TSlimX2Pump) (c : Clock) (op : Op)
    (ha : s.profiles.contains s.activeProfileName = true) :
    ∃ b s1, step s c op = some (b, s1) := by
  cases op with
  | deleteProfile name =>
    obtain ⟨⟨b, s1⟩, hr⟩ := deleteProfile_defined s c name ha
    exact ⟨b, s1, hr⟩
  | activateProfile name =>
    obtain ⟨⟨b, s1⟩, hr⟩ := activateProfile_defined s c name ha
    exact ⟨b, s1, hr⟩
  | _ => exact ⟨_, _, rfl⟩

/-- C19: in a state whose error is not NONE, after any call other than `chargeBattery`,
`refillInsulin` and `clearError` (so after `powerOn`, `powerOff`, `sleep`, `wake`,
`createProfile`, `updateProfile`, `deleteProfile`, `activateProfile`, `deliverBolus`,
`cancelBolus`, `startBasal`, `stopBasal`, `resumeBasal`, `enableControlIQ` and
`disableControlIQ`) the error is still not NONE; and the call has a result whenever the
active profile is registered. -/
theorem error_not_cleared (s : TSlimX2Pump) (c : Clock) (op : Op)
    (hop : op.isCorrective = false) (herr : s.currentError ≠ ErrorType.NONE) :
    (∀ b s1, step s c op = some (b, s1) → s1.currentError ≠ ErrorType.NONE) ∧
      (s.profiles.contains s.activeProfileName = true → ∃ b s1, step s c op = some (b, s1)) :=
  ⟨fun b s1 hr => step_error_persists s s1 c op b hop herr hr,
    fun ha => step_defined_of_active s c op ha⟩

/-- Witness of C19: the controller with the empty reservoir carries the error
LOW_INSULIN, and a refused bolus leaves the error set. -/
theorem error_not_cleared_witness :
    (Op.deliverBolus 1 false 0).isCorrective = false ∧ dry.currentError ≠ ErrorType.NONE ∧
      (∀ b s1, step dry Clock.morning (.deliverBolus 1 false 0) = some (b, s1) →
        s1.currentError ≠ ErrorType.NONE) ∧
      (dry.profiles.contains dry.activeProfileName = true →
        ∃ b s1, step dry Clock.morning (.deliverBolus 1 false 0) = some (b, s1)) :=
  ⟨rfl, by rw [dry_eq]; decide,
    error_not_cleared dry Clock.morning (.deliverBolus 1 false 0) rfl (by rw [dry_eq]; decide)⟩

/-! ## The event log only grows -/

/-- The reverse scan changes at most one event, a bolus whose cancelled flag goes from
false to true, and keeps the order and every other event. -/
theorem cancelScan_evolves (l scanned : List Event) (u : ℚ)
    (h : cancelScan l = some (u, scanned)) : List.Forall₂ Event.evolves l scanned := by
  induction l generalizing scanned with
  | nil => simp [cancelScan] at h
  | cons a rest ih =>
    unfold cancelScan at h
    by_cases ha : a.isUncancelledBolus = true
    · rw [if_pos ha] at h
      simp only [Option.some.injEq, Prod.mk.injEq] at h
      rw [← h.2]
      exact List.Forall₂.cons (Or.inr ⟨ha, rfl⟩) (List.forall₂_same.mpr (fun _ _ => Or.inl rfl))
    · rw [if_neg ha] at h
      cases hr : cancelScan rest with
      | none => simp [hr] at h
      | some r =>
        simp only [hr, Option.map_some', Option.some.injEq, Prod.mk.injEq] at h
        rw [← h.2]
        exact List.Forall₂.cons (Or.inl rfl) (ih r.2 (by rw [hr, ← h.1]))

/-- The shape of the log after a call: the old log with events appended, or, for a
successful `cancelBolus`, the scanned log with the suspend event appended. -/
theorem step_log_shape (s s1 : TSlimX2Pump) (c : Clock) (op : Op) (b : Bool)
    (hr : step s c op = some (b, s1)) :
    (∃ evs, s1.eventHistory = s.eventHistory ++ evs) ∨
      (∃ u scanned, cancelScan s.eventHistory.reverse = some (u, scanned) ∧
        s1.eventHistory = scanned.reverse ++ [Event.suspend c.now "Bolus cancelled"]) := by
  cases op with
  | deleteProfile name =>
    rcases deleteProfile_cases s s1 c name b hr with
      ⟨-, rfl, -⟩ | ⟨-, -, -, -, evs, active, -, rfl, -⟩
    · exact Or.inl ⟨[], (List.append_nil _).symm⟩
    · exact Or.inl ⟨evs, rfl⟩
  | activateProfile name =>
    rcases activateProfile_cases s s1 c name b hr with ⟨-, rfl, -⟩ | ⟨-, -, -, evs, -, rfl⟩
    · exact Or.inl ⟨[], (List.append_nil _).symm⟩
    · exact Or.inl ⟨evs, rfl⟩
  | powerOn =>
    simp only [step, Option.some.injEq] at hr
    rw [snd_of_eq hr]
    unfold powerOn
    split_ifs
    · exact Or.inl ⟨[], (List.append_nil _).symm⟩
    · exact Or.inl ⟨[_], rfl⟩
    · exact Or.inl ⟨[], (List.append_nil _).symm⟩
  | powerOff =>
    simp only [step, Option.some.injEq] at hr
    rw [snd_of_eq hr]
    unfold powerOff
    split_ifs
    · exact Or.inl ⟨[_], rfl⟩
    · exact Or.inl ⟨[], (List.append_nil _).symm⟩
    · exact Or.inl ⟨[], (List.append_nil _).symm⟩
  | sleep =>
    simp only [step, Option.some.injEq] at hr
    rw [snd_of_eq hr]
    unfold sleep
    split_ifs <;> exact Or.inl ⟨[], (List.append_nil _).symm⟩
  | wake =>
    simp only [step, Option.some.injEq] at hr
    rw [snd_of_eq hr]
    unfold wake
    split_ifs <;> exact Or.inl ⟨[], (List.append_nil _).symm⟩
  | chargeBattery amount =>
    simp only [step, Option.some.injEq] at hr
    rw [snd_of_eq hr]
    unfold chargeBattery
    split_ifs <;> exact Or.inl ⟨[], (List.append_nil _).symm⟩
  | refillInsulin amount =>
    simp only [step, Option.some.injEq] at hr
    rw [snd_of_eq hr]
    unfold refillInsulin
    split_ifs <;> exact Or.inl ⟨[], (List.append_nil _).symm⟩
  | createProfile name =>
    simp only [step, Option.some.injEq] at hr
    rw [snd_of_eq hr]
    unfold createProfile
    split_ifs <;> exact Or.inl ⟨[], (List.append_nil _).symm⟩
  | updateProfile name profile =>
    simp only [step, Option.some.injEq] at hr
    rw [snd_of_eq hr]
    unfold updateProfile
    cases profile with
    | none => exact Or.inl ⟨[], (List.append_nil _).symm⟩
    | some p =>
      simp only
      split_ifs
      · exact Or.inl ⟨[], (List.append_nil _).symm⟩
      · exact Or.inl ⟨[_], rfl⟩
      · exact Or.inl ⟨[], (List.append_nil _).symm⟩
  | deliverBolus units extended durationMinutes =>
    simp only [step, Option.some.injEq] at hr
    rw [snd_of_eq hr]
    rcases deliverBolus_cases s units extended durationMinutes with hg | ⟨h1, h2, h3⟩
    · rw [deliverBolus_refused s c units extended durationMinutes hg]
      exact Or.inl ⟨[], (List.append_nil _).symm⟩
    · rw [deliverBolus_accepted s c units extended durationMinutes h1 h2 h3]
      exact Or.inl ⟨[_], rfl⟩
  | cancelBolus =>
    simp only [step, Option.some.injEq] at hr
    rw [snd_of_eq hr]
    by_cases hs : s.currentState = .DELIVERING_BOLUS
    · cases hscan : cancelScan s.eventHistory.reverse with
      | none =>
        rw [cancelBolus_not_found s c hscan]
        exact Or.inl ⟨[], (List.append_nil _).symm⟩
      | some r =>
        rw [cancelBolus_found s c r.1 r.2 hs hscan]
        exact Or.inr ⟨r.1, r.2, rfl, rfl⟩
    · rw [cancelBolus_idle s c hs]
      exact Or.inl ⟨[], (List.append_nil _).symm⟩
  | startBasal =>
    simp only [step, Option.some.injEq] at hr
    rw [snd_of_eq hr]
    by_cases h1 : s.currentState = .OFF ∨ s.currentState = .SLEEP ∨ s.currentState = .ERROR
    · rw [startBasal_refused s c h1]
      exact Or.inl ⟨[], (List.append_nil _).symm⟩
    · by_cases h2 : s.insulinLevel ≤ 0
      · rw [startBasal_empty s c h1 h2]
        exact Or.inl ⟨[], (List.append_nil _).symm⟩
      · rw [startBasal_started s c h1 h2]
        cases s.getActiveProfile with
        | none => exact Or.inl ⟨[], (List.append_nil _).symm⟩
        | some p => exact Or.inl ⟨[_], rfl⟩
  | stopBasal =>
    simp only [step, Option.some.injEq] at hr
    rw [snd_of_eq hr]
    unfold stopBasal
    split_ifs
    · exact Or.inl ⟨[], (List.append_nil _).symm⟩
    · exact Or.inl ⟨[_], rfl⟩
  | resumeBasal =>
    simp only [step, Option.some.injEq] at hr
    rw [snd_of_eq hr]
    by_cases h1 : s.currentState = .SUSPENDED
    · by_cases h2 : s.insulinLevel ≤ 0
      · rw [resumeBasal_empty s c h1 h2]
        exact Or.inl ⟨[], (List.append_nil _).symm⟩
      · rw [resumeBasal_resumed s c h1 h2]
        cases s.getActiveProfile with
        | none => exact Or.inl ⟨[], (List.append_nil _).symm⟩
        | some p => exact Or.inl ⟨[_, _], rfl⟩
    · rw [resumeBasal_refused s c h1]
      exact Or.inl ⟨[], (List.append_nil _).symm⟩
  | enableControlIQ =>
    simp only [step, Option.some.injEq] at hr
    rw [snd_of_eq hr]
    unfold enableControlIQ
    split_ifs <;> exact Or.inl ⟨[], (List.append_nil _).symm⟩
  | disableControlIQ =>
    simp only [step, Option.some.injEq] at hr
    rw [snd_of_eq hr]
    exact Or.inl ⟨[], (List.append_nil _).symm⟩
  | connectCGM =>
    simp only [step, Option.some.injEq] at hr
    rw [snd_of_eq hr]
    exact Or.inl ⟨[], (List.append_nil _).symm⟩
  | disconnectCGM =>
    simp only [step, Option.some.injEq] at hr
    rw [snd_of_eq hr]
    exact Or.inl ⟨[], (List.append_nil _).symm⟩
  | updateCGMData glucoseValue =>
    simp only [step, Option.some.injEq] at hr
    rw [snd_of_eq hr]
    exact Or.inl ⟨[_], rfl⟩
  | clearError =>
    simp only [step, Option.some.injEq] at hr
    rw [snd_of_eq hr]
    exact Or.inl ⟨[], (List.append_nil _).symm⟩

/-- C20: under every call the event log only grows. The log after the call starts with
the events of the log before it, in the same order and with the same payloads, except
that a bolus event may have its cancelled flag changed from false to true; further
events may follow. No event is removed or reordered and no cancelled flag goes back to
false. -/
theorem log_append_only (s s1 : TSlimX2Pump) (c : Clock) (op : Op) (b : Bool)
    (hr : step s c op = some (b, s1)) :
    ∃ kept added, s1.eventHistory = kept ++ added ∧
      List.Forall₂ Event.evolves s.eventHistory kept := by
  rcases step_log_shape s s1 c op b hr with ⟨evs, he⟩ | ⟨u, scanned, hscan, he⟩
  · exact ⟨s.eventHistory, evs, he, List.forall₂_same.mpr (fun _ _ => Or.inl rfl)⟩
  · refine ⟨scanned.reverse, _, he, ?_⟩
    have h := cancelScan_evolves _ _ _ hscan
    have h2 := List.rel_reverse h
    simpa using h2

/-- Witness of C20: cancelling the extended bolus keeps both logged events in place, the
bolus now cancelled, and appends the suspend event. -/
theorem log_append_only_witness :
    step extending Clock.morning .cancelBolus = some (extending.cancelBolus Clock.morning) ∧
      ∃ kept added, (extending.cancelBolus Clock.morning).2.eventHistory = kept ++ added ∧
        List.Forall₂ Event.evolves extending.eventHistory kept :=
  ⟨rfl, log_append_only extending (extending.cancelBolus Clock.morning).2 Clock.morning
    .cancelBolus (extending.cancelBolus Clock.morning).1 rfl⟩

/-! ## calculateSuggestedBolus -/

/-- C21: with the carb ratio, the correction factor and the target glucose resolved from
the active profile at the current time, `calculateSuggestedBolus` returns the maximum of
0 and food component plus correction component minus the insulin on board, where the
food component is the carb intake divided by the carb ratio and the correction component
is the maximum of 0 and the glucose excess over the target, divided by the correction
factor. The result is never negative, and it is 0 when no active profile resolves. -/
theorem calculateSuggestedBolus_spec (s : TSlimX2Pump) (c : Clock)
    (currentGlucose carbIntake : ℚ) :
    (∀ profile, s.getActiveProfile = some profile →
        s.calculateSuggestedBolus c currentGlucose carbIntake =
          max 0 (carbIntake / profile.getCarbRatio c.hour c.minute +
            max 0 (currentGlucose - profile.getTargetGlucose c.hour c.minute) /
              profile.getCorrectionFactor c.hour c.minute -
            s.insulinOnBoard)) ∧
      0 ≤ s.calculateSuggestedBolus c currentGlucose carbIntake ∧
      (s.getActiveProfile = none → s.calculateSuggestedBolus c currentGlucose carbIntake = 0) := by
  have hcorr : ∀ d f : ℚ, (if d > 0 then d / f else 0) = max 0 d / f := by
    intro d f
    by_cases hd : d > 0
    · rw [if_pos hd, max_eq_right (le_of_lt hd)]
    · rw [if_neg hd, max_eq_left (not_lt.mp hd), zero_div]
  have hclamp : ∀ t : ℚ, (if t < 0 then 0 else t) = max 0 t := by
    intro t
    by_cases ht : t < 0
    · rw [if_pos ht, max_eq_left (le_of_lt ht)]
    · rw [if_neg ht, max_eq_right (not_lt.mp ht)]
  unfold calculateSuggestedBolus
  cases hp : s.getActiveProfile with
  | none =>
    refine ⟨?_, le_refl _, fun _ => rfl⟩
    intro profile h
    cases h
  | some p =>
    simp only [hcorr, hclamp]
    refine ⟨?_, le_max_left _ _, ?_⟩
    · intro profile hprofile
      simp only [Option.some.injEq] at hprofile
      subst hprofile
      rfl
    · intro h
      cases h

/-! ## The time-keyed lookup -/

/-- The assignment `settings[key] = value` keeps the keys strictly increasing. -/
theorem Settings.set_sorted (key : Int) (value : ℚ) (t : Settings) (h : t.Sorted) :
    (Settings.set key value t).Sorted := by
  induction t with
  | nil => simp [Settings.set, Settings.Sorted]
  | cons e rest ih =>
    obtain ⟨k, v⟩ := e
    unfold Settings.Sorted at h ih ⊢
    rw [List.pairwise_cons] at h
    unfold Settings.set
    by_cases h1 : key = k
    · rw [if_pos h1, List.pairwise_cons]
      refine ⟨?_, h.2⟩
      intro b hb
      have := h.1 b hb
      simpa [h1] using this
    · rw [if_neg h1]
      by_cases h2 : key < k
      · rw [if_pos h2, List.pairwise_cons, List.pairwise_cons]
        refine ⟨?_, h.1, h.2⟩
        intro b hb
        rcases List.mem_cons.mp hb with rfl | hb
        · exact h2
        · exact lt_trans h2 (h.1 b hb)
      · rw [if_neg h2, List.pairwise_cons]
        refine ⟨?_, ih h.2⟩
        intro b hb
        have hkk : k < key := lt_of_le_of_ne (not_lt.mp h2) (Ne.symm h1)
        have hmem : b = (key, value) ∨ b ∈ rest := by
          clear ih h
          induction rest with
          | nil =>
            simp only [Settings.set, List.mem_singleton] at hb
            exact Or.inl hb
          | cons e2 rest2 ih2 =>
            obtain ⟨k2, v2⟩ := e2
            unfold Settings.set at hb
            by_cases h3 : key = k2
            · rw [if_pos h3] at hb
              rcases List.mem_cons.mp hb with hb | hb
              · exact Or.inl hb
              · exact Or.inr (List.mem_cons_of_mem _ hb)
            · rw [if_neg h3] at hb
              by_cases h4 : key < k2
              · rw [if_pos h4] at hb
                rcases List.mem_cons.mp hb with hb | hb
                · exact Or.inl hb
                · exact Or.inr hb
              · rw [if_neg h4] at hb
                rcases List.mem_cons.mp hb with hb | hb
                · exact Or.inr (hb ▸ List.mem_cons_self _ _)
                · rcases ih2 hb with h5 | h5
                  · exact Or.inl h5
                  · exact Or.inr (List.mem_cons_of_mem _ h5)
        rcases hmem with rfl | hb
        · exact hkk
        · exact h.1 b hb

/-- In a table with increasing keys the last entry has the greatest key. -/
theorem Settings.getLast_greatest (t : Settings) (e : Int × ℚ) (h : t.Sorted)
    (hl : t.getLast? = some e) : e ∈ t ∧ ∀ x ∈ t, x.1 ≤ e.1 := by
  refine ⟨List.mem_of_getLast?_eq_some hl, ?_⟩
  obtain ⟨ys, rfl⟩ := List.getLast?_eq_some_iff.mp hl
  unfold Settings.Sorted at h
  rw [List.pairwise_append] at h
  intro x hx
  rcases List.mem_append.mp hx with hx | hx
  · exact le_of_lt (h.2.2 x hx e (List.mem_singleton.mpr rfl))
  · rw [List.mem_singleton.mp hx]

/-- The sample table is what the three assignments build, in key order. -/
theorem Settings.sample_eq : Settings.sample = [(0, 1 / 2), (360, 4 / 5), (1320, 3 / 5)] := by
  simp +decide [Settings.sample, Settings.set]

/-- C22: for every non-empty table with increasing keys (as `std::map` keeps it) and
every time of day, the lookup returns the value stored at the greatest key that is at
most the minute of the day, or the value stored at the latest key when the minute is
below every key. The empty table has increasing keys and every assignment keeps them
increasing. For the table 0 to 0.5, 360 to 0.8, 1320 to 0.6 the lookup gives 0.5 at
5:59, 0.8 at 6:00 and 0.6 at 23:30. -/
theorem getValueAtTime_spec :
    (∀ (t : Settings) (hour minute : Int), t.Sorted → t ≠ [] →
        ∃ k v, (k, v) ∈ t ∧ Profile.getValueAtTime t hour minute = v ∧
          ((k ≤ Profile.timeToMinutes hour minute ∧
              ∀ e ∈ t, e.1 ≤ Profile.timeToMinutes hour minute → e.1 ≤ k) ∨
            ((∀ e ∈ t, Profile.timeToMinutes hour minute < e.1) ∧ ∀ e ∈ t, e.1 ≤ k))) ∧
      (Settings.Sorted [] ∧
        ∀ (key : Int) (value : ℚ) (t : Settings), t.Sorted → (Settings.set key value t).Sorted) ∧
      Settings.sample.Sorted ∧
      Profile.getValueAtTime Settings.sample 5 59 = 1 / 2 ∧
      Profile.getValueAtTime Settings.sample 6 0 = 4 / 5 ∧
      Profile.getValueAtTime Settings.sample 23 30 = 3 / 5 := by
  refine ⟨?_, ⟨List.Pairwise.nil, Settings.set_sorted⟩, ?_, ?_, ?_, ?_⟩
  · intro t hour minute hs hne
    unfold Profile.getValueAtTime
    cases hf : (t.filter (fun e => decide (e.1 ≤ Profile.timeToMinutes hour minute))).getLast?
      with
    | some e =>
      have hsf : Settings.Sorted
          (t.filter (fun e => decide (e.1 ≤ Profile.timeToMinutes hour minute))) :=
        List.Pairwise.filter _ hs
      obtain ⟨hmem, hmax⟩ := Settings.getLast_greatest _ e hsf hf
      rw [List.mem_filter] at hmem
      refine ⟨e.1, e.2, hmem.1, rfl, Or.inl ⟨of_decide_eq_true hmem.2, ?_⟩⟩
      intro x hx hle
      exact hmax x (List.mem_filter.mpr ⟨hx, decide_eq_true hle⟩)
    | none =>
      rw [List.getLast?_eq_none_iff, List.filter_eq_nil_iff] at hf
      cases hl : t.getLast? with
      | none => exact absurd (List.getLast?_eq_none_iff.mp hl) hne
      | some e =>
        obtain ⟨hmem, hmax⟩ := Settings.getLast_greatest t e hs hl
        refine ⟨e.1, e.2, hmem, rfl, Or.inr ⟨?_, hmax⟩⟩
        intro x hx
        have := hf x hx
        simpa using this
  · rw [Settings.sample_eq]
    simp [Settings.Sorted]
  · rw [Settings.sample_eq]
    simp +decide [Profile.getValueAtTime, Profile.timeToMinutes]
  · rw [Settings.sample_eq]
    simp +decide [Profile.getValueAtTime, Profile.timeToMinutes]
  · rw [Settings.sample_eq]
    simp +decide [Profile.getValueAtTime, Profile.timeToMinutes]

/-- Witness of C22: in the sample table the lookup at 23:30 returns a stored value whose
key is the greatest one at most 1410, or the latest one. -/
theorem getValueAtTime_spec_witness :
    Settings.sample.Sorted ∧ Settings.sample ≠ [] ∧
      ∃ k v, (k, v) ∈ Settings.sample ∧ Profile.getValueAtTime Settings.sample 23 30 = v ∧
        ((k ≤ Profile.timeToMinutes 23 30 ∧
            ∀ e ∈ Settings.sample, e.1 ≤ Profile.timeToMinutes 23 30 → e.1 ≤ k) ∨
          ((∀ e ∈ Settings.sample, Profile.timeToMinutes 23 30 < e.1) ∧
            ∀ e ∈ Settings.sample, e.1 ≤ k)) :=
  ⟨getValueAtTime_spec.2.2.1, by rw [Settings.sample_eq]; simp,
    getValueAtTime_spec.1 Settings.sample 23 30 getValueAtTime_spec.2.2.1
      (by rw [Settings.sample_eq]; simp)⟩

/-- Before the first boundary the lookup wraps to the latest one: in the table 360 to
0.8, 1320 to 0.6 the lookup at 5:00 gives 0.6. -/
theorem getValueAtTime_wraps :
    Profile.getValueAtTime [(360, 4 / 5), (1320, 3 / 5)] 5 0 = 3 / 5 := by
  simp +decide [Profile.getValueAtTime, Profile.timeToMinutes]

/-! ## The Default profile, evaluated at half past eight -/

set_option maxRecDepth 4000 in
theorem default_carbRatio : defaultProfile.getCarbRatio 8 30 = 15 := by
  simp +decide [defaultProfile, Profile.getCarbRatio, Profile.getValueAtTime,
    Profile.timeToMinutes, Profile.new, Profile.addBasalRate, Profile.addCarbRatio,
    Profile.addCorrectionFactor, Profile.addTargetGlucose, Profile.setInsulinDuration,
    Settings.set, List.range, List.range.loop]

set_option maxRecDepth 4000 in
theorem default_correctionFactor : defaultProfile.getCorrectionFactor 8 30 = 2 := by
  simp +decide [defaultProfile, Profile.getCorrectionFactor, Profile.getValueAtTime,
    Profile.timeToMinutes, Profile.new, Profile.addBasalRate, Profile.addCarbRatio,
    Profile.addCorrectionFactor, Profile.addTargetGlucose, Profile.setInsulinDuration,
    Settings.set, List.range, List.range.loop]

set_option maxRecDepth 4000 in
theorem default_targetGlucose : defaultProfile.getTargetGlucose 8 30 = 67 / 10 := by
  simp +decide [defaultProfile, Profile.getTargetGlucose, Profile.getValueAtTime,
    Profile.timeToMinutes, Profile.new, Profile.addBasalRate, Profile.addCarbRatio,
    Profile.addCorrectionFactor, Profile.addTargetGlucose, Profile.setInsulinDuration,
    Settings.set, List.range, List.range.loop]

set_option maxRecDepth 4000 in
theorem default_basalRate : defaultProfile.getBasalRate 8 30 = 1 / 2 := by
  simp +decide [defaultProfile, Profile.getBasalRate, Profile.getValueAtTime,
    Profile.timeToMinutes, Profile.new, Profile.addBasalRate, Profile.addCarbRatio,
    Profile.addCorrectionFactor, Profile.addTargetGlucose, Profile.setInsulinDuration,
    Settings.set, List.range, List.range.loop]

/-- Witness of C21: on the ready controller, with the Default profile (carb ratio 15,
correction factor 2, target 6.7) and no insulin on board, a glucose of 10 and 45 grams
of carbohydrate give 45 / 15 + (10 - 6.7) / 2 = 4.65 units. -/
theorem calculateSuggestedBolus_spec_witness :
    ready.getActiveProfile = some defaultProfile ∧
      ready.calculateSuggestedBolus Clock.morning 10 45 = 93 / 20 := by
  refine ⟨ready_active_profile, ?_⟩
  rw [(calculateSuggestedBolus_spec ready Clock.morning 10 45).1 defaultProfile
    ready_active_profile]
  have hh : Clock.morning.hour = 8 := rfl
  have hm : Clock.morning.minute = 30 := rfl
  have hiob : ready.insulinOnBoard = 0 := by
    rw [ready_eq]
    rfl
  rw [hh, hm, default_carbRatio, default_correctionFactor, default_targetGlucose, hiob]
  norm_num

/-! ## The most recent bolus event -/

/-- Appending events that are no bolus leaves the most recent bolus event as it is. -/
theorem lastBolus_append_other (log evs : List Event) (h : ∀ e ∈ evs, e.isBolus = false) :
    lastBolus (log ++ evs) = lastBolus log := by
  unfold lastBolus
  rw [List.reverse_append, List.find?_append]
  have hnone : evs.reverse.find? Event.isBolus = none := by
    rw [List.find?_eq_none]
    intro x hx
    rw [h x (List.mem_reverse.mp hx)]
    decide
  rw [hnone]
  rfl

/-- After a bolus event is appended it is the most recent bolus event. -/
theorem lastBolus_append_bolus (log : List Event) (ts : Int) (bt : BolusType) (u : ℚ)
    (d : Int) (cancelled : Bool) :
    lastBolus (log ++ [Event.bolus ts bt u d cancelled]) =
      some (Event.bolus ts bt u d cancelled) := by
  unfold lastBolus
  rw [List.reverse_append]
  rfl

/-- When the first bolus event of the scanned list is not cancelled, the reverse scan
cancels exactly that event. -/
theorem cancelScan_of_find (l : List Event) (ts : Int) (bt : BolusType) (u : ℚ) (d : Int)
    (h : l.find? Event.isBolus = some (Event.bolus ts bt u d false)) :
    ∃ pre post, l = pre ++ Event.bolus ts bt u d false :: post ∧
      (∀ x ∈ pre, x.isBolus = false) ∧
      cancelScan l = some (u, pre ++ Event.bolus ts bt u d true :: post) := by
  induction l with
  | nil => simp at h
  | cons a rest ih =>
    by_cases ha : a.isBolus = true
    · rw [List.find?_cons_of_pos _ ha] at h
      simp only [Option.some.injEq] at h
      subst h
      exact ⟨[], rest, rfl, by simp, by
        simp [cancelScan, Event.isUncancelledBolus, Event.getUnits, Event.setCancelled]⟩
    · rw [List.find?_cons_of_neg _ ha] at h
      obtain ⟨pre, post, hl, hpre, hscan⟩ := ih h
      have hb : a.isBolus = false := by simpa using ha
      have hu : ¬a.isUncancelledBolus = true := by
        cases a <;> simp_all [Event.isBolus, Event.isUncancelledBolus]
      refine ⟨a :: pre, post, by rw [hl]; rfl, ?_, ?_⟩
      · intro x hx
        rcases List.mem_cons.mp hx with rfl | hx
        · exact hb
        · exact hpre x hx
      · unfold cancelScan
        rw [if_neg hu, hscan]
        rfl

/-! ## Calls that neither deliver nor cancel a bolus -/

set_option linter.unreachableTactic false in
set_option linter.unusedTactic false in
/-- A call other than `deliverBolus`, `cancelBolus` and `refillInsulin` leaves the
insulin on board and the reservoir as they are, appends only events that are no bolus,
and does not enter the state DELIVERING_BOLUS. -/
theorem step_plain (s s1 : TSlimX2Pump) (c : Clock) (op : Op) (b : Bool)
    (hr : step s c op = some (b, s1))
    (hd : ∀ u e d, op ≠ Op.deliverBolus u e d) (hc : op ≠ Op.cancelBolus)
    (hf : ∀ a, op ≠ Op.refillInsulin a) :
    s1.insulinOnBoard = s.insulinOnBoard ∧ s1.insulinLevel = s.insulinLevel ∧
      (∃ evs, s1.eventHistory = s.eventHistory ++ evs ∧ ∀ e ∈ evs, e.isBolus = false) ∧
      (s1.currentState = State.DELIVERING_BOLUS → s.currentState = State.DELIVERING_BOLUS) := by
  cases op with
  | deliverBolus units extended durationMinutes => exact absurd rfl (hd _ _ _)
  | cancelBolus => exact absurd rfl hc
  | refillInsulin amount => exact absurd rfl (hf _)
  | deleteProfile name =>
    rcases deleteProfile_cases s s1 c name b hr with
      ⟨-, rfl, -⟩ | ⟨-, -, -, -, evs, active, hevs, rfl, -⟩
    · exact ⟨rfl, rfl, ⟨[], (List.append_nil _).symm, by simp⟩, fun h => h⟩
    · exact ⟨rfl, rfl, ⟨evs, rfl, hevs⟩, fun h => h⟩
  | activateProfile name =>
    rcases activateProfile_cases s s1 c name b hr with ⟨-, rfl, -⟩ | ⟨-, -, -, evs, hevs, rfl⟩
    · exact ⟨rfl, rfl, ⟨[], (List.append_nil _).symm, by simp⟩, fun h => h⟩
    · exact ⟨rfl, rfl, ⟨evs, rfl, hevs⟩, fun h => h⟩
  | powerOn =>
    simp only [step, Option.some.injEq] at hr
    rw [snd_of_eq hr]
    unfold powerOn
    split_ifs <;> first
      | (refine ⟨rfl, rfl, ⟨[], (List.append_nil _).symm, by simp⟩, ?_⟩
         intro h
         first | exact h | exact h.elim | exact State.noConfusion h)
      | (refine ⟨rfl, rfl,
           ⟨[_], rfl, by intro e he; simp at he; subst he; rfl⟩, ?_⟩
         intro h
         first | exact h | exact h.elim | exact State.noConfusion h)
  | powerOff =>
    simp only [step, Option.some.injEq] at hr
    rw [snd_of_eq hr]
    unfold powerOff
    split_ifs <;> first
      | (refine ⟨rfl, rfl, ⟨[], (List.append_nil _).symm, by simp⟩, ?_⟩
         intro h
         first | exact h | exact h.elim | exact State.noConfusion h)
      | (refine ⟨rfl, rfl,
           ⟨[_], rfl, by intro e he; simp at he; subst he; rfl⟩, ?_⟩
         intro h
         first | exact h | exact h.elim | exact State.noConfusion h)
  | sleep =>
    simp only [step, Option.some.injEq] at hr
    rw [snd_of_eq hr]
    unfold sleep
    split_ifs <;> first
      | (refine ⟨rfl, rfl, ⟨[], (List.append_nil _).symm, by simp⟩, ?_⟩
         intro h
         first | exact h | exact h.elim | exact State.noConfusion h)
      | (refine ⟨rfl, rfl,
           ⟨[_], rfl, by intro e he; simp at he; subst he; rfl⟩, ?_⟩
         intro h
         first | exact h | exact h.elim | exact State.noConfusion h)
  | wake =>
    simp only [step, Option.some.injEq] at hr
    rw [snd_of_eq hr]
    unfold wake
    split_ifs <;> first
      | (refine ⟨rfl, rfl, ⟨[], (List.append_nil _).symm, by simp⟩, ?_⟩
         intro h
         first | exact h | exact h.elim | exact State.noConfusion h)
      | (refine ⟨rfl, rfl,
           ⟨[_], rfl, by intro e he; simp at he; subst he; rfl⟩, ?_⟩
         intro h
         first | exact h | exact h.elim | exact State.noConfusion h)
  | chargeBattery amount =>
    simp only [step, Option.some.injEq] at hr
    rw [snd_of_eq hr]
    unfold chargeBattery
    split_ifs <;> first
      | (refine ⟨rfl, rfl, ⟨[], (List.append_nil _).symm, by simp⟩, ?_⟩
         intro h
         first | exact h | exact h.elim | exact State.noConfusion h)
      | (refine ⟨rfl, rfl,
           ⟨[_], rfl, by intro e he; simp at he; subst he; rfl⟩, ?_⟩
         intro h
         first | exact h | exact h.elim | exact State.noConfusion h)
  | createProfile name =>
    simp only [step, Option.some.injEq] at hr
    rw [snd_of_eq hr]
    unfold createProfile
    split_ifs <;> first
      | (refine ⟨rfl, rfl, ⟨[], (List.append_nil _).symm, by simp⟩, ?_⟩
         intro h
         first | exact h | exact h.elim | exact State.noConfusion h)
      | (refine ⟨rfl, rfl,
           ⟨[_], rfl, by intro e he; simp at he; subst he; rfl⟩, ?_⟩
         intro h
         first | exact h | exact h.elim | exact State.noConfusion h)
  | stopBasal =>
    simp only [step, Option.some.injEq] at hr
    rw [snd_of_eq hr]
    unfold stopBasal
    split_ifs <;> first
      | (refine ⟨rfl, rfl, ⟨[], (List.append_nil _).symm, by simp⟩, ?_⟩
         intro h
         first | exact h | exact h.elim | exact State.noConfusion h)
      | (refine ⟨rfl, rfl,
           ⟨[_], rfl, by intro e he; simp at he; subst he; rfl⟩, ?_⟩
         intro h
         first | exact h | exact h.elim | exact State.noConfusion h)
  | enableControlIQ =>
    simp only [step, Option.some.injEq] at hr
    rw [snd_of_eq hr]
    unfold enableControlIQ
    split_ifs <;> first
      | (refine ⟨rfl, rfl, ⟨[], (List.append_nil _).symm, by simp⟩, ?_⟩
         intro h
         first | exact h | exact h.elim | exact State.noConfusion h)
      | (refine ⟨rfl, rfl,
           ⟨[_], rfl, by intro e he; simp at he; subst he; rfl⟩, ?_⟩
         intro h
         first | exact h | exact h.elim | exact State.noConfusion h)
  | updateProfile name profile =>
    simp only [step, Option.some.injEq] at hr
    rw [snd_of_eq hr]
    unfold updateProfile
    cases profile with
    | none => exact ⟨rfl, rfl, ⟨[], (List.append_nil _).symm, by simp⟩, fun h => h⟩
    | some p =>
      simp only
      split_ifs <;> first
        | (refine ⟨rfl, rfl, ⟨[], (List.append_nil _).symm, by simp⟩, ?_⟩
           intro h
           first | exact h | exact h.elim | exact State.noConfusion h)
        | (refine ⟨rfl, rfl,
             ⟨[_], rfl, by intro e he; simp at he; subst he; rfl⟩, ?_⟩
           intro h
           first | exact h | exact h.elim | exact State.noConfusion h)
  | startBasal =>
    simp only [step, Option.some.injEq] at hr
    rw [snd_of_eq hr]
    by_cases h1 : s.currentState = .OFF ∨ s.currentState = .SLEEP ∨ s.currentState = .ERROR
    · rw [startBasal_refused s c h1]
      exact ⟨rfl, rfl, ⟨[], (List.append_nil _).symm, by simp⟩, fun h => h⟩
    · by_cases h2 : s.insulinLevel ≤ 0
      · rw [startBasal_empty s c h1 h2]
        exact ⟨rfl, rfl, ⟨[], (List.append_nil _).symm, by simp⟩, fun h => h⟩
      · rw [startBasal_started s c h1 h2]
        cases s.getActiveProfile <;> first
          | (refine ⟨rfl, rfl, ⟨[], (List.append_nil _).symm, by simp⟩, ?_⟩
             intro h
             first | exact h | exact h.elim | exact State.noConfusion h)
          | (refine ⟨rfl, rfl,
               ⟨[_], rfl, by intro e he; simp at he; subst he; rfl⟩, ?_⟩
             intro h
             first | exact h | exact h.elim | exact State.noConfusion h)
  | resumeBasal =>
    simp only [step, Option.some.injEq] at hr
    rw [snd_of_eq hr]
    by_cases h1 : s.currentState = .SUSPENDED
    · by_cases h2 : s.insulinLevel ≤ 0
      · rw [resumeBasal_empty s c h1 h2]
        exact ⟨rfl, rfl, ⟨[], (List.append_nil _).symm, by simp⟩, fun h => h⟩
      · rw [resumeBasal_resumed s c h1 h2]
        cases s.getActiveProfile with
        | none =>
          exact ⟨rfl, rfl, ⟨[], (List.append_nil _).symm, by simp⟩,
            fun h => State.noConfusion h⟩
        | some p =>
          exact ⟨rfl, rfl,
            ⟨[_, _], rfl, by intro e he; simp at he; rcases he with rfl | rfl <;> rfl⟩,
            fun h => State.noConfusion h⟩
    · rw [resumeBasal_refused s c h1]
      exact ⟨rfl, rfl, ⟨[], (List.append_nil _).symm, by simp⟩, fun h => h⟩
  | disableControlIQ =>
    simp only [step, Option.some.injEq] at hr
    rw [snd_of_eq hr]
    exact ⟨rfl, rfl, ⟨[], (List.append_nil _).symm, by simp⟩, fun h => h⟩
  | connectCGM =>
    simp only [step, Option.some.injEq] at hr
    rw [snd_of_eq hr]
    exact ⟨rfl, rfl, ⟨[], (List.append_nil _).symm, by simp⟩, fun h => h⟩
  | disconnectCGM =>
    simp only [step, Option.some.injEq] at hr
    rw [snd_of_eq hr]
    exact ⟨rfl, rfl, ⟨[], (List.append_nil _).symm, by simp⟩, fun h => h⟩
  | clearError =>
    simp only [step, Option.some.injEq] at hr
    rw [snd_of_eq hr]
    exact ⟨rfl, rfl, ⟨[], (List.append_nil _).symm, by simp⟩, fun h => h⟩
  | updateCGMData glucoseValue =>
    simp only [step, Option.some.injEq] at hr
    rw [snd_of_eq hr]
    exact ⟨rfl, rfl, ⟨[_], rfl, by intro e he; simp at he; subst he; rfl⟩, fun h => h⟩

/-! ## The operating state and the logged bolus events -/

/-- A bolus event of a log with appended events that are no bolus lies in the log. -/
theorem bolus_mem_of_append_other (log evs : List Event) (e : Event)
    (h : ∀ x ∈ evs, x.isBolus = false) (he : e.isBolus = true) (hm : e ∈ log ++ evs) :
    e ∈ log := by
  rcases List.mem_append.mp hm with hm | hm
  · exact hm
  · rw [h e hm] at he
    cases he

theorem BolusTracked.at_init : BolusTracked TSlimX2Pump.init where
  delivering := by
    intro h
    cases h
  cancelled_extended := by
    intro ts bt u d hm
    simp [TSlimX2Pump.init] at hm

/-- A call that appends only events that are no bolus and does not enter the state
DELIVERING_BOLUS keeps the bolus invariants. -/
theorem BolusTracked.of_plain {s s1 : TSlimX2Pump} (h : BolusTracked s) (evs : List Event)
    (he : s1.eventHistory = s.eventHistory ++ evs) (hevs : ∀ e ∈ evs, e.isBolus = false)
    (hst : s1.currentState = State.DELIVERING_BOLUS →
      s.currentState = State.DELIVERING_BOLUS) : BolusTracked s1 where
  delivering := by
    intro h1
    rw [he, lastBolus_append_other _ _ hevs]
    exact h.delivering (hst h1)
  cancelled_extended := by
    intro ts bt u d hm
    rw [he] at hm
    exact h.cancelled_extended ts bt u d (bolus_mem_of_append_other _ _ _ hevs rfl hm)

theorem BolusTracked.after_refillInsulin {s : TSlimX2Pump} (h : BolusTracked s) (amount : ℚ) :
    BolusTracked (s.refillInsulin amount).2 := by
  unfold TSlimX2Pump.refillInsulin
  split_ifs
  · exact h
  · exact h
  · exact h.of_plain [] (List.append_nil _).symm (by simp) (fun h1 => h1)

theorem BolusTracked.after_deliverBolus {s : TSlimX2Pump} (h : BolusTracked s) (c : Clock)
    (units : ℚ) (extended : Bool) (durationMinutes : Int) :
    BolusTracked (s.deliverBolus c units extended durationMinutes).2 := by
  rcases deliverBolus_cases s units extended durationMinutes with hg | ⟨h1, h2, h3⟩
  · rw [deliverBolus_refused s c units extended durationMinutes hg]
    exact h
  · rw [deliverBolus_accepted s c units extended durationMinutes h1 h2 h3]
    constructor
    · intro hst
      have hext : extended = true := by
        cases extended with
        | true => rfl
        | false => exact State.noConfusion hst
      subst hext
      exact ⟨c.now, units, durationMinutes, lastBolus_append_bolus _ _ _ _ _ _⟩
    · intro ts bt u d hm
      rcases List.mem_append.mp hm with hm | hm
      · exact h.cancelled_extended ts bt u d hm
      · simp only [List.mem_singleton] at hm
        cases hm

theorem BolusTracked.after_cancelBolus {s : TSlimX2Pump} (h : BolusTracked s) (c : Clock) :
    BolusTracked (s.cancelBolus c).2 := by
  by_cases hs : s.currentState = .DELIVERING_BOLUS
  · obtain ⟨ts, u, d, hlast⟩ := h.delivering hs
    obtain ⟨pre, post, hl, hpre, hscan⟩ := cancelScan_of_find _ ts .EXTENDED u d hlast
    rw [cancelBolus_found s c u _ hs hscan]
    constructor
    · intro hst
      exact State.noConfusion hst
    · intro ts2 bt2 u2 d2 hm
      have hm2 : Event.bolus ts2 bt2 u2 d2 true ∈
          (pre ++ Event.bolus ts .EXTENDED u d true :: post).reverse :=
        bolus_mem_of_append_other _ [Event.suspend c.now "Bolus cancelled"] _
          (by intro x hx; simp at hx; subst hx; rfl) rfl hm
      rw [List.mem_reverse] at hm2
      rcases List.mem_append.mp hm2 with hm3 | hm3
      · have := hpre _ hm3
        cases this
      · rcases List.mem_cons.mp hm3 with hm4 | hm4
        · simp only [Event.bolus.injEq] at hm4
          exact hm4.2.1
        · apply h.cancelled_extended ts2 bt2 u2 d2
          rw [← List.mem_reverse, hl]
          exact List.mem_append_right _ (List.mem_cons_of_mem _ hm4)
  · rw [cancelBolus_idle s c hs]
    exact h

/-- Every call keeps the bolus invariants. -/
theorem BolusTracked.after_step {s s1 : TSlimX2Pump} (h : BolusTracked s) (c : Clock) (op : Op)
    (b : Bool) (hr : InsulinPump.step s c op = some (b, s1)) : BolusTracked s1 := by
  by_cases hd : ∃ u e d, op = Op.deliverBolus u e d
  · obtain ⟨u, e, d, rfl⟩ := hd
    simp only [InsulinPump.step, Option.some.injEq] at hr
    rw [snd_of_eq hr]
    exact h.after_deliverBolus c u e d
  · by_cases hc : op = Op.cancelBolus
    · subst hc
      simp only [InsulinPump.step, Option.some.injEq] at hr
      rw [snd_of_eq hr]
      exact h.after_cancelBolus c
    · by_cases hf : ∃ a, op = Op.refillInsulin a
      · obtain ⟨a, rfl⟩ := hf
        simp only [InsulinPump.step, Option.some.injEq] at hr
        rw [snd_of_eq hr]
        exact h.after_refillInsulin a
      · push_neg at hd hf
        obtain ⟨-, -, ⟨evs, he, hevs⟩, hst⟩ := step_plain s s1 c op b hr hd hc hf
        exact h.of_plain evs he hevs hst

/-- Every reachable state satisfies the bolus invariants. -/
theorem Reachable.bolusTracked {s : TSlimX2Pump} (h : Reachable s) : BolusTracked s := by
  induction h with
  | init => exact BolusTracked.at_init
  | step c op _ hr ih => exact ih.after_step c op _ hr

/-- C23: in every reachable state in which the operating state is DELIVERING_BOLUS, the
most recent bolus event of the log is an extended one that is not cancelled. Hence on
reachable states `cancelBolus` succeeds if and only if the state is DELIVERING_BOLUS,
the event it cancels is the most recent bolus event (no bolus event follows it in the
log), and no cancelled bolus event of the log is a manual one. -/
theorem cancelBolus_reachable (s : TSlimX2Pump) (c : Clock) (h : Reachable s) :
    (s.currentState = State.DELIVERING_BOLUS →
        ∃ ts u d, lastBolus s.eventHistory =
          some (Event.bolus ts BolusType.EXTENDED u d false)) ∧
      ((s.cancelBolus c).1 = true ↔ s.currentState = State.DELIVERING_BOLUS) ∧
      (s.currentState = State.DELIVERING_BOLUS →
        ∃ before after ts u d,
          s.eventHistory = before ++ (Event.bolus ts BolusType.EXTENDED u d false :: after) ∧
          (∀ x ∈ after, x.isBolus = false) ∧
          s.cancelBolus c =
            (true,
              { s with
                currentState := State.DELIVERING_BASAL
                insulinLevel := s.insulinLevel + u / 2
                insulinOnBoard := s.insulinOnBoard - u / 2
                eventHistory :=
                  before ++ (Event.bolus ts BolusType.EXTENDED u d true :: after) ++
                    [Event.suspend c.now "Bolus cancelled"] })) ∧
      (∀ ts u d, Event.bolus ts BolusType.MANUAL u d true ∉ s.eventHistory) := by
  have hb := h.bolusTracked
  have hfound : s.currentState = State.DELIVERING_BOLUS →
      ∃ before after ts u d,
        s.eventHistory = before ++ (Event.bolus ts BolusType.EXTENDED u d false :: after) ∧
        (∀ x ∈ after, x.isBolus = false) ∧
        s.cancelBolus c =
          (true,
            { s with
              currentState := State.DELIVERING_BASAL
              insulinLevel := s.insulinLevel + u / 2
              insulinOnBoard := s.insulinOnBoard - u / 2
              eventHistory :=
                before ++ (Event.bolus ts BolusType.EXTENDED u d true :: after) ++
                  [Event.suspend c.now "Bolus cancelled"] }) := by
    intro hs
    obtain ⟨ts, u, d, hlast⟩ := hb.delivering hs
    obtain ⟨pre, post, hl, hpre, hscan⟩ := cancelScan_of_find _ ts .EXTENDED u d hlast
    have hlog : s.eventHistory =
        post.reverse ++ (Event.bolus ts .EXTENDED u d false :: pre.reverse) := by
      have := congrArg List.reverse hl
      simpa using this
    refine ⟨post.reverse, pre.reverse, ts, u, d, hlog, ?_, ?_⟩
    · intro x hx
      exact hpre x (List.mem_reverse.mp hx)
    · rw [cancelBolus_found s c u _ hs hscan]
      simp
  refine ⟨hb.delivering, Iff.intro ?_ ?_, hfound, ?_⟩
  · intro hres
    by_contra hs
    rw [cancelBolus_idle s c hs] at hres
    cases hres
  · intro hs
    obtain ⟨before, after, ts, u, d, -, -, hres⟩ := hfound hs
    rw [hres]
  · intro ts u d hm
    have := hb.cancelled_extended ts .MANUAL u d hm
    cases this

/-- Witness of C23: while the extended bolus of 10 units is delivered, `cancelBolus`
succeeds. -/
theorem cancelBolus_reachable_witness :
    Reachable extending ∧ extending.currentState = State.DELIVERING_BOLUS ∧
      (extending.cancelBolus Clock.morning).1 = true ∧
      ∃ ts u d, lastBolus extending.eventHistory =
        some (Event.bolus ts BolusType.EXTENDED u d false) :=
  have hs : extending.currentState = State.DELIVERING_BOLUS := by rw [extending_eq]
  ⟨extending_reachable, hs,
    (cancelBolus_reachable extending Clock.morning extending_reachable).2.1.mpr hs,
    (cancelBolus_reachable extending Clock.morning extending_reachable).1 hs⟩

/-! ## The overfilled reservoir -/

/-- The ready controller, evaluated: switched on, 300 units in the reservoir. -/
theorem FloatPump.ready_evaluated :
    FloatPump.ready = { FloatPump.init with currentState := .ON, insulinLevel := .num 300,
                                            eventHistory := [.resume 1000 "Power on"] } := by
  decide!

/-- C1, failing call: the ready controller holds 300 units, which is not negative; the
call `deliverBolus(NAN)` passes the guard `units <= 0 || insulinLevel < units` (both
comparisons are false for NaN), returns success and leaves NaN in the reservoir, which
is not `>= 0`. -/
theorem deliverBolus_nan_reservoir :
    Binary32.le (.num 0) FloatPump.ready.insulinLevel = true ∧
      (FloatPump.ready.deliverBolus Clock.morning .nan false 0).1 = true ∧
      (FloatPump.ready.deliverBolus Clock.morning .nan false 0).2.insulinLevel = .nan ∧
      Binary32.le (.num 0)
        (FloatPump.ready.deliverBolus Clock.morning .nan false 0).2.insulinLevel = false := by
  decide!

/-- C2, failing calls: on the ready controller `deliverBolus(NAN)` returns success
although neither `units > 0` nor `reservoir >= units` holds of NaN; with NaN in the
reservoir a following bolus of 1000000 units succeeds as well, although
`reservoir >= units` does not hold. -/
theorem deliverBolus_nan_accepted :
    (FloatPump.ready.deliverBolus Clock.morning .nan false 0).1 = true ∧
      Binary32.lt (.num 0) .nan = false ∧
      Binary32.le .nan FloatPump.ready.insulinLevel = false ∧
      ((FloatPump.ready.deliverBolus Clock.morning .nan false 0).2.deliverBolus Clock.morning
        (.num 1000000) false 0).1 = true ∧
      Binary32.le (.num 1000000)
        (FloatPump.ready.deliverBolus Clock.morning .nan false 0).2.insulinLevel = false := by
  decide!

/-- C6, failing sequence: from the constructed controller, `powerOn()` and then
`deliverBolus(NAN)` both succeed and leave NaN as the insulin on board, which is not
`>= 0`. -/
theorem insulinOnBoard_nan_reachable :
    (FloatPump.init.powerOn Clock.morning).1 = true ∧
      ((FloatPump.init.powerOn Clock.morning).2.deliverBolus Clock.morning .nan false 0).1 =
        true ∧
      ((FloatPump.init.powerOn Clock.morning).2.deliverBolus Clock.morning .nan
        false 0).2.insulinOnBoard = .nan ∧
      Binary32.le (.num 0)
        ((FloatPump.init.powerOn Clock.morning).2.deliverBolus Clock.morning .nan
          false 0).2.insulinOnBoard = false := by
  decide!

/-- C7, failing call: on the constructed controller `chargeBattery(NAN)` passes the guard
`amount <= 0` and the clamp `batteryLevel > 100.0` (both comparisons are false for NaN),
returns success and leaves NaN as the battery level, which is neither `>= 0` nor
`<= 100`. -/
theorem chargeBattery_nan_battery :
    Binary32.le (.num 0) FloatPump.init.batteryLevel = true ∧
      Binary32.le FloatPump.init.batteryLevel (.num 100) = true ∧
      (FloatPump.init.chargeBattery .nan).1 = true ∧
      (FloatPump.init.chargeBattery .nan).2.batteryLevel = .nan ∧
      Binary32.le (.num 0) (FloatPump.init.chargeBattery .nan).2.batteryLevel = false ∧
      Binary32.le (FloatPump.init.chargeBattery .nan).2.batteryLevel (.num 100) = false := by
  decide!

/-! ## Binary32: rounding -/

/-- The controller while the extended bolus of 0.1 units is delivered, evaluated: the
reservoir and the insulin on board were rounded separately. -/
theorem FloatPump.dosing_evaluated :
    FloatPump.dosing =
      { FloatPump.init with
        currentState := .DELIVERING_BOLUS
        insulinLevel := .num (9827123 / 32768)
        insulinOnBoard := .num (13421773 / 134217728)
        lastBolusTime := 1000
        lastBolusAmount := .num (13421773 / 134217728)
        eventHistory := [.resume 1000 "Power on",
          .bolus 1000 .EXTENDED (.num (13421773 / 134217728)) 10 false] } := by
  decide!

/-! ## Binary32: the two members across the calls -/

/-- In the embedding over binary32 values: a failing `deliverBolus` changes nothing; a
successful one stores the rounded difference of reservoir and units and the rounded sum
of insulin on board and units. -/
theorem FloatPump.deliverBolus_moves (f : FloatPump) (c : Clock) (units : Binary32)
    (extended : Bool) (durationMinutes : Int) :
    ((f.deliverBolus c units extended durationMinutes).1 = false →
        (f.deliverBolus c units extended durationMinutes).2 = f) ∧
      ((f.deliverBolus c units extended durationMinutes).1 = true →
        (f.deliverBolus c units extended durationMinutes).2.insulinLevel =
            Binary32.sub f.insulinLevel units ∧
          (f.deliverBolus c units extended durationMinutes).2.insulinOnBoard =
            Binary32.add f.insulinOnBoard units) := by
  unfold FloatPump.deliverBolus
  by_cases h1 : f.currentState = .OFF ∨ f.currentState = .SLEEP ∨ f.currentState = .ERROR
  · rw [if_pos h1]
    exact ⟨fun _ => rfl, fun h => Bool.noConfusion h⟩
  · rw [if_neg h1]
    by_cases h2 : Binary32.le units (.num 0) = true ∨ Binary32.lt f.insulinLevel units = true
    · rw [if_pos h2]
      exact ⟨fun _ => rfl, fun h => Bool.noConfusion h⟩
    · rw [if_neg h2]
      by_cases h3 : extended = true ∧ durationMinutes ≤ 0
      · rw [if_pos h3]
        exact ⟨fun _ => rfl, fun h => Bool.noConfusion h⟩
      · rw [if_neg h3]
        exact ⟨fun h => Bool.noConfusion h, fun _ => ⟨rfl, rfl⟩⟩

theorem Binary32.roundEven_nonneg (x : ℚ) (h : 0 ≤ x) : 0 ≤ Binary32.roundEven x := by
  have hf : 0 ≤ ⌊x⌋ := Int.floor_nonneg.mpr h
  unfold Binary32.roundEven
  simp only
  split_ifs <;> omega

/-- Rounding an exact result that is not negative gives a value that is not negative. -/
theorem Binary32.round_nonneg (q : ℚ) (h : 0 ≤ q) :
    Binary32.le (.num 0) (Binary32.round q) = true := by
  unfold Binary32.round
  by_cases h0 : q = 0
  · rw [if_pos h0]
    simp [Binary32.le]
  · rw [if_neg h0]
    simp only
    split_ifs with hbig
    · simp [Binary32.le, not_lt.mpr h]
    · have hulp : (0 : ℚ) < 2 ^ (max (Binary32.exponent |q|) (-126) - 23) := by positivity
      have hr := Binary32.roundEven_nonneg _ (div_nonneg h hulp.le)
      have hr2 : (0 : ℚ) ≤ (Binary32.roundEven
          (q / 2 ^ (max (Binary32.exponent |q|) (-126) - 23)) : ℚ) := by exact_mod_cast hr
      simp only [Binary32.le, decide_eq_true_eq]
      exact mul_nonneg hr2 hulp.le

/-- Rounding never gives NaN. -/
theorem Binary32.round_ne_nan (q : ℚ) : Binary32.round q ≠ .nan := by
  unfold Binary32.round
  simp only
  split_ifs <;> simp

/-- In the embedding over binary32 values: a successful `deliverBolus` has passed the three
guards. -/
theorem FloatPump.guard_of_success (f : FloatPump) (c : Clock) (units : Binary32)
    (extended : Bool) (durationMinutes : Int)
    (h : (f.deliverBolus c units extended durationMinutes).1 = true) :
    ¬(f.currentState = .OFF ∨ f.currentState = .SLEEP ∨ f.currentState = .ERROR) ∧
      ¬(Binary32.le units (.num 0) = true ∨ Binary32.lt f.insulinLevel units = true) ∧
      ¬(extended = true ∧ durationMinutes ≤ 0) := by
  unfold FloatPump.deliverBolus at h
  by_cases h1 : f.currentState = .OFF ∨ f.currentState = .SLEEP ∨ f.currentState = .ERROR
  · rw [if_pos h1] at h
    exact Bool.noConfusion h
  · rw [if_neg h1] at h
    by_cases h2 : Binary32.le units (.num 0) = true ∨ Binary32.lt f.insulinLevel units = true
    · rw [if_pos h2] at h
      exact Bool.noConfusion h
    · rw [if_neg h2] at h
      by_cases h3 : extended = true ∧ durationMinutes ≤ 0
      · rw [if_pos h3] at h
        exact Bool.noConfusion h
      · exact ⟨h1, h2, h3⟩

/-- In the embedding over binary32 values, the units being any value other than NaN and
the reservoir a number that is not negative: `deliverBolus` fails whenever the units
exceed the reservoir, and the reservoir after the call is not negative. -/
theorem FloatPump.deliverBolus_reservoir_safe_of_ne_nan (f : FloatPump) (c : Clock)
    (units : Binary32) (extended : Bool) (durationMinutes : Int) (r : ℚ)
    (hr : f.insulinLevel = .num r) (h0 : 0 ≤ r) (hn : units ≠ .nan) :
    (Binary32.lt f.insulinLevel units = true →
        (f.deliverBolus c units extended durationMinutes).1 = false) ∧
      Binary32.le (.num 0) (f.deliverBolus c units extended durationMinutes).2.insulinLevel =
        true := by
  constructor
  · intro hu
    cases hb : (f.deliverBolus c units extended durationMinutes).1 with
    | false => rfl
    | true =>
      exact absurd (Or.inr hu)
        (FloatPump.guard_of_success f c units extended durationMinutes hb).2.1
  · cases hb : (f.deliverBolus c units extended durationMinutes).1 with
    | false =>
      rw [(FloatPump.deliverBolus_moves f c units extended durationMinutes).1 hb, hr]
      simpa [Binary32.le] using h0
    | true =>
      have hg :=
        (FloatPump.guard_of_success f c units extended durationMinutes hb).2.1
      rw [((FloatPump.deliverBolus_moves f c units extended durationMinutes).2 hb).1, hr]
      rw [hr] at hg
      cases units with
      | nan => exact absurd rfl hn
      | inf n =>
        cases n <;> simp [Binary32.le, Binary32.lt] at hg
      | num u =>
        simp only [Binary32.le, Binary32.lt, decide_eq_true_eq, not_or, not_le, not_lt] at hg
        show Binary32.le (.num 0) (Binary32.round (r - u)) = true
        exact Binary32.round_nonneg _ (by linarith [hg.2])

/-- In the embedding over binary32 values, neither the units nor the reservoir being NaN:
`deliverBolus` succeeds if and only if the state is none of OFF, SLEEP and ERROR, the
units are positive and at most the reservoir, and an extended bolus has a positive
duration; a failing call leaves the state unchanged. -/
theorem FloatPump.deliverBolus_succeeds_iff_of_ne_nan (f : FloatPump) (c : Clock)
    (units : Binary32) (extended : Bool) (durationMinutes : Int)
    (hu : units ≠ .nan) (hl : f.insulinLevel ≠ .nan) :
    ((f.deliverBolus c units extended durationMinutes).1 = true ↔
        (f.currentState ≠ .OFF ∧ f.currentState ≠ .SLEEP ∧ f.currentState ≠ .ERROR) ∧
          Binary32.lt (.num 0) units = true ∧ Binary32.le units f.insulinLevel = true ∧
          (extended = true → 0 < durationMinutes)) ∧
      ((f.deliverBolus c units extended durationMinutes).1 = false →
        (f.deliverBolus c units extended durationMinutes).2 = f) := by
  refine ⟨Iff.intro ?_ ?_, (FloatPump.deliverBolus_moves f c units extended durationMinutes).1⟩
  · intro h
    obtain ⟨h1, h2, h3⟩ :=
      FloatPump.guard_of_success f c units extended durationMinutes h
    push_neg at h1 h2 h3
    refine ⟨h1, ?_, ?_, h3⟩
    · have := h2.1
      cases units with
      | nan => exact absurd rfl hu
      | inf n => cases n <;> simp_all [Binary32.le, Binary32.lt]
      | num u => simpa [Binary32.le, Binary32.lt] using this
    · have := h2.2
      cases units with
      | nan => exact absurd rfl hu
      | inf n =>
        cases hlv : f.insulinLevel with
        | nan => exact absurd hlv hl
        | inf m => rw [hlv] at this; cases n <;> cases m <;> simp_all [Binary32.le, Binary32.lt]
        | num r => rw [hlv] at this; cases n <;> simp_all [Binary32.le, Binary32.lt]
      | num u =>
        cases hlv : f.insulinLevel with
        | nan => exact absurd hlv hl
        | inf m => rw [hlv] at this; cases m <;> simp_all [Binary32.le, Binary32.lt]
        | num r => rw [hlv] at this; simpa [Binary32.le, Binary32.lt] using this
  · rintro ⟨⟨a, b, d⟩, hpos, hle, hd⟩
    unfold FloatPump.deliverBolus
    have h1 : ¬(f.currentState = .OFF ∨ f.currentState = .SLEEP ∨ f.currentState = .ERROR) := by
      rintro (h | h | h)
      · exact a h
      · exact b h
      · exact d h
    have h2 : ¬(Binary32.le units (.num 0) = true ∨ Binary32.lt f.insulinLevel units = true) := by
      cases units with
      | nan => exact absurd rfl hu
      | inf n =>
        cases hlv : f.insulinLevel with
        | nan => exact absurd hlv hl
        | inf m => rw [hlv] at hle; cases n <;> cases m <;> simp_all [Binary32.le, Binary32.lt]
        | num r => rw [hlv] at hle; cases n <;> simp_all [Binary32.le, Binary32.lt]
      | num u =>
        cases hlv : f.insulinLevel with
        | nan => exact absurd hlv hl
        | inf m => rw [hlv] at hle; cases m <;> simp_all [Binary32.le, Binary32.lt]
        | num r =>
          rw [hlv] at hle
          simp only [Binary32.le, Binary32.lt, decide_eq_true_eq] at hle hpos ⊢
          push_neg
          exact ⟨hpos, hle⟩
    have h3 : ¬(extended = true ∧ durationMinutes ≤ 0) := by
      rintro ⟨he, hd0⟩
      have := hd he
      omega
    rw [if_neg h1, if_neg h2, if_neg h3]

/-- In the embedding over binary32 values, the amount being any value other than NaN and
the battery a number within 0 and 100: after `chargeBattery` the battery is again a
number within 0 and 100. -/
theorem FloatPump.chargeBattery_bounds_of_ne_nan (f : FloatPump) (amount : Binary32) (b : ℚ)
    (hb : f.batteryLevel = .num b) (h0 : 0 ≤ b) (h100 : b ≤ 100) (hn : amount ≠ .nan) :
    ∃ b1, (f.chargeBattery amount).2.batteryLevel = .num b1 ∧ 0 ≤ b1 ∧ b1 ≤ 100 := by
  unfold FloatPump.chargeBattery
  by_cases h1 : Binary32.le amount (.num 0) = true
  · rw [if_pos h1]
    exact ⟨b, hb, h0, h100⟩
  · rw [if_neg h1]
    show ∃ b1, (if Binary32.lt (.num 100) (Binary32.add f.batteryLevel amount) = true
        then Binary32.num 100 else Binary32.add f.batteryLevel amount) = .num b1 ∧ 0 ≤ b1 ∧ b1 ≤ 100
    rw [hb]
    cases amount with
    | nan => exact absurd rfl hn
    | inf n =>
      cases n
      · exact ⟨100, by simp [Binary32.add, Binary32.lt], by norm_num, le_refl _⟩
      · simp [Binary32.le] at h1
    | num a =>
      simp only [Binary32.le, decide_eq_true_eq, not_le] at h1
      have hnn := Binary32.round_nonneg (b + a) (by linarith)
      have hne := Binary32.round_ne_nan (b + a)
      show ∃ b1, (if Binary32.lt (.num 100) (Binary32.round (b + a)) = true
        then Binary32.num 100 else Binary32.round (b + a)) = .num b1 ∧ 0 ≤ b1 ∧ b1 ≤ 100
      cases hv : Binary32.round (b + a) with
      | nan => exact absurd hv hne
      | inf n =>
        rw [hv] at hnn
        cases n
        · exact ⟨100, by simp [Binary32.lt], by norm_num, le_refl _⟩
        · simp [Binary32.le] at hnn
      | num v =>
        rw [hv] at hnn
        simp only [Binary32.le, decide_eq_true_eq] at hnn
        by_cases hgt : 100 < v
        · exact ⟨100, by simp [Binary32.lt, hgt], by norm_num, le_refl _⟩
        · exact ⟨v, by simp [Binary32.lt, hgt], hnn, not_lt.mp hgt⟩

/-- In the embedding over binary32 values, the units being any value other than NaN and
the insulin on board a number that is not negative: after `deliverBolus` the insulin on
board is not negative. -/
theorem FloatPump.deliverBolus_onBoard_of_ne_nan (f : FloatPump) (c : Clock)
    (units : Binary32) (extended : Bool) (durationMinutes : Int) (i : ℚ)
    (hi : f.insulinOnBoard = .num i) (h0 : 0 ≤ i) (hn : units ≠ .nan) :
    Binary32.le (.num 0) (f.deliverBolus c units extended durationMinutes).2.insulinOnBoard =
      true := by
  cases hb : (f.deliverBolus c units extended durationMinutes).1 with
  | false =>
    rw [(FloatPump.deliverBolus_moves f c units extended durationMinutes).1 hb, hi]
    simpa [Binary32.le] using h0
  | true =>
    have hg := (FloatPump.guard_of_success f c units extended durationMinutes hb).2.1
    rw [((FloatPump.deliverBolus_moves f c units extended durationMinutes).2 hb).2, hi]
    cases units with
    | nan => exact absurd rfl hn
    | inf n =>
      cases n
      · simp [Binary32.add, Binary32.le]
      · simp [Binary32.le] at hg
    | num u =>
      simp only [Binary32.le, decide_eq_true_eq, not_or, not_le] at hg
      show Binary32.le (.num 0) (Binary32.round (i + u)) = true
      exact Binary32.round_nonneg _ (by linarith [hg.1])

/-! ## Binary32: rounding does not fall below a binary32 number -/

end InsulinPump
